import Mathlib

/-!
Verification of the aura terminal rendering engine
(Rust sources under `packages/aura/rust/src`).

Colors are modelled over `ℚ`.  The two irrational power curves used by
`blend_colors` (`alpha.powf(0.9)` and `normalized_high_alpha.powf(0.2)`)
cannot be expressed exactly in rational arithmetic, so they are abstracted
as a `PowModel` parameter; every statement below holds for an arbitrary
model of those two curves.
-/

/-- RGBA color, four normalized components (source type `[f32; 4]`). -/
structure RGBA where
  r : ℚ
  g : ℚ
  b : ℚ
  a : ℚ
deriving DecidableEq, Repr

/-- `buffer.rs` error kinds. -/
inductive BufferError where
  | OutOfMemory
  | InvalidDimensions
  | InvalidUnicode
  | BufferTooSmall
deriving DecidableEq, Repr

/-- `fn is_rgba_with_alpha(color: RGBA) -> bool { color[3] < 1.0 }` -/
def is_rgba_with_alpha (color : RGBA) : Bool :=
  color.a < 1

/-- `fn rgba_equal(a, b, epsilon)` from `buffer.rs`. -/
def rgba_equal (x y : RGBA) (epsilon : ℚ) : Bool :=
  |x.r - y.r| < epsilon && |x.g - y.g| < epsilon &&
  |x.b - y.b| < epsilon && |x.a - y.a| < epsilon

/-- Abstract model of the two `f32::powf` calls appearing in
`blend_colors`: `pow09 x` stands for `x.powf(0.9)` and `pow02 x` for
`x.powf(0.2)`.  Rational arithmetic has no exact fractional powers, so the
curves are parameters of the embedding. -/
structure PowModel where
  pow09 : ℚ → ℚ
  pow02 : ℚ → ℚ

/-- A trivial instantiation of `PowModel`, used by concrete witnesses. -/
def pmId : PowModel := ⟨fun x => x, fun x => x⟩

/-- `fn blend_colors(overlay: RGBA, text: RGBA) -> RGBA` from `buffer.rs`:
fast path for `overlay[3] >= 0.999`, perceptual alpha with a knee at
`alpha > 0.8`, output alpha taken from `text`. -/
def blend_colors (pm : PowModel) (overlay text : RGBA) : RGBA :=
  if overlay.a ≥ 999/1000 then overlay
  else
    let alpha := overlay.a
    let perceptual_alpha :=
      if alpha > 4/5 then
        let normalized_high_alpha := (alpha - 4/5) * 5
        let curved_high_alpha := pm.pow02 normalized_high_alpha
        4/5 + curved_high_alpha * (1/5)
      else
        pm.pow09 alpha
    let inv_alpha := 1 - perceptual_alpha
    { r := overlay.r * perceptual_alpha + text.r * inv_alpha
      g := overlay.g * perceptual_alpha + text.g * inv_alpha
      b := overlay.b * perceptual_alpha + text.b * inv_alpha
      a := text.a }

/-- One grid cell: codepoint, foreground, background, attribute bitmask. -/
structure Cell where
  char : ℕ
  fg : RGBA
  bg : RGBA
  attributes : ℕ
deriving DecidableEq, Repr

/-- The cell every `OptimizedBuffer` starts with: SPACE on opaque black
with opaque white foreground (`OptimizedBuffer::init`). -/
def defaultCell : Cell :=
  { char := 32, fg := ⟨1, 1, 1, 1⟩, bg := ⟨0, 0, 0, 1⟩, attributes := 0 }

/-- The cell value `OptimizedBuffer::resize` fills fresh area with:
`char = 0`, both colors fully transparent black, attributes `0`. -/
def zeroCell : Cell :=
  { char := 0, fg := ⟨0, 0, 0, 0⟩, bg := ⟨0, 0, 0, 0⟩, attributes := 0 }

/-- The cell grid.  The four parallel arrays `char`/`fg`/`bg`/`attributes`
of the source (which always have identical length `width * height`) are
modelled as one list of `Cell`s in row-major order. -/
structure OptimizedBuffer where
  width : ℕ
  height : ℕ
  respect_alpha : Bool
  cells : List Cell
deriving DecidableEq, Repr

namespace OptimizedBuffer

/-- `OptimizedBuffer::init`. -/
def init (width height : ℕ) (respect_alpha : Bool) :
    Except BufferError OptimizedBuffer :=
  if width = 0 ∨ height = 0 then .error .InvalidDimensions
  else .ok { width := width, height := height, respect_alpha := respect_alpha,
             cells := List.replicate (width * height) defaultCell }

/-- `OptimizedBuffer::get`: out of bounds is absent. -/
def get (b : OptimizedBuffer) (x y : ℕ) : Option Cell :=
  if x ≥ b.width ∨ y ≥ b.height then none
  else b.cells[y * b.width + x]?

/-- `OptimizedBuffer::set`: out of bounds is a silent no-op. -/
def set (b : OptimizedBuffer) (x y : ℕ) (cell : Cell) : OptimizedBuffer :=
  if x ≥ b.width ∨ y ≥ b.height then b
  else { b with cells := b.cells.set (y * b.width + x) cell }

/-- `OptimizedBuffer::set_cell_with_alpha_blending`. -/
def set_cell_with_alpha_blending (pm : PowModel) (b : OptimizedBuffer)
    (x y : ℕ) (char : ℕ) (fg bg : RGBA) (attributes : ℕ) : OptimizedBuffer :=
  let has_bg_alpha := is_rgba_with_alpha bg
  let has_fg_alpha := is_rgba_with_alpha fg
  if has_bg_alpha || has_fg_alpha then
    match b.get x y with
    | some dest_cell =>
      let blended_bg_rgb :=
        if has_bg_alpha then blend_colors pm bg dest_cell.bg else bg
      let preserve_char :=
        char == 32 && dest_cell.char != 0 && dest_cell.char != 32
      let final_char := if preserve_char then dest_cell.char else char
      let final_fg :=
        if preserve_char then
          blend_colors pm bg dest_cell.fg
        else
          if has_fg_alpha then blend_colors pm fg dest_cell.bg else fg
      let final_attributes :=
        if preserve_char then dest_cell.attributes else attributes
      let final_bg : RGBA :=
        ⟨blended_bg_rgb.r, blended_bg_rgb.g, blended_bg_rgb.b, bg.a⟩
      b.set x y { char := final_char, fg := final_fg, bg := final_bg,
                  attributes := final_attributes }
    | none =>
      b.set x y { char := char, fg := fg, bg := bg, attributes := attributes }
  else
    b.set x y { char := char, fg := fg, bg := bg, attributes := attributes }

end OptimizedBuffer

/-- A sample 2-by-2 grid used by concrete witnesses. -/
def wGrid : OptimizedBuffer :=
  { width := 2, height := 2, respect_alpha := false,
    cells := [ { char := 65, fg := ⟨1, 0, 0, 1⟩, bg := ⟨0, 0, 1, 1⟩, attributes := 3 },
               defaultCell, defaultCell, defaultCell ] }

/-- Helper: reading back the very cell just written, when the write was
in bounds of both the dimensions and the backing list. -/
theorem OptimizedBuffer.get_set_self (b : OptimizedBuffer) (x y : ℕ) (c : Cell)
    (hx : x < b.width) (hy : y < b.height)
    (hidx : y * b.width + x < b.cells.length) :
    (b.set x y c).get x y = some c := by
  unfold OptimizedBuffer.set OptimizedBuffer.get
  have hcond : ¬(x ≥ b.width ∨ y ≥ b.height) := by omega
  simp only [hcond, if_false]
  simpa using List.getElem?_set_self hidx

/-- Claim C1: overlaying SPACE with a translucent background over a cell
holding a real glyph `G` (`G ≠ 0`, `G ≠ SPACE`) keeps the glyph and the
destination attributes, stores the blend of the overlay bg over the
destination bg with alpha forced to the overlay's bg alpha, and stores the
blend of the overlay bg over the destination fg as the new foreground. -/
theorem C1_space_preservation (pm : PowModel) (b : OptimizedBuffer)
    (x y : ℕ) (dest : Cell) (fgp bgp : RGBA) (attrp : ℕ)
    (hget : b.get x y = some dest)
    (hchar0 : dest.char ≠ 0) (hcharSp : dest.char ≠ 32)
    (halpha : bgp.a < 1) :
    (b.set_cell_with_alpha_blending pm x y 32 fgp bgp attrp).get x y =
      some { char := dest.char
             fg := blend_colors pm bgp dest.fg
             bg := ⟨(blend_colors pm bgp dest.bg).r,
                    (blend_colors pm bgp dest.bg).g,
                    (blend_colors pm bgp dest.bg).b, bgp.a⟩
             attributes := dest.attributes } := by
  have hx : x < b.width := by
    by_contra h
    simp [OptimizedBuffer.get, Nat.le_of_not_lt h] at hget
  have hy : y < b.height := by
    by_contra h
    simp [OptimizedBuffer.get, Nat.le_of_not_lt h] at hget
  have hidx : y * b.width + x < b.cells.length := by
    have hcond : ¬(x ≥ b.width ∨ y ≥ b.height) := by omega
    unfold OptimizedBuffer.get at hget
    simp only [hcond, if_false] at hget
    exact (List.getElem?_eq_some_iff.mp hget).1
  have hba : is_rgba_with_alpha bgp = true := by
    simpa [is_rgba_with_alpha] using halpha
  have h0 : (dest.char == 0) = false := by simp [hchar0]
  have h32 : (dest.char == 32) = false := by simp [hcharSp]
  unfold OptimizedBuffer.set_cell_with_alpha_blending
  simp only [hba, Bool.true_or, if_true, hget]
  simp only [beq_self_eq_true, Bool.true_and, bne, h0, h32, Bool.not_false,
    Bool.and_self, if_true]
  exact OptimizedBuffer.get_set_self b x y _ hx hy hidx

/-- Witness for C1 at a concrete grid and overlay. -/
theorem C1_space_preservation_witness :
    (wGrid.set_cell_with_alpha_blending pmId 0 0 32 ⟨1, 1, 1, 1⟩ ⟨0, 1, 0, 1/2⟩ 7).get 0 0 =
      some { char := 65
             fg := blend_colors pmId ⟨0, 1, 0, 1/2⟩ ⟨1, 0, 0, 1⟩
             bg := ⟨(blend_colors pmId ⟨0, 1, 0, 1/2⟩ ⟨0, 0, 1, 1⟩).r,
                    (blend_colors pmId ⟨0, 1, 0, 1/2⟩ ⟨0, 0, 1, 1⟩).g,
                    (blend_colors pmId ⟨0, 1, 0, 1/2⟩ ⟨0, 0, 1, 1⟩).b, 1/2⟩
             attributes := 3 } :=
  C1_space_preservation pmId wGrid 0 0
    { char := 65, fg := ⟨1, 0, 0, 1⟩, bg := ⟨0, 0, 1, 1⟩, attributes := 3 }
    ⟨1, 1, 1, 1⟩ ⟨0, 1, 0, 1/2⟩ 7 (by decide) (by decide) (by decide) (by norm_num)

/-- Claim C2: with both overlay alphas equal to 1 (opaque),
`set_cell_with_alpha_blending` is exactly `set` of the same cell. -/
theorem C2_opaque_blending_is_set (pm : PowModel) (b : OptimizedBuffer)
    (x y : ℕ) (char : ℕ) (fg bg : RGBA) (attributes : ℕ)
    (_hx : x < b.width) (_hy : y < b.height)
    (hfa : fg.a = 1) (hba : bg.a = 1) :
    b.set_cell_with_alpha_blending pm x y char fg bg attributes =
      b.set x y { char := char, fg := fg, bg := bg, attributes := attributes } := by
  have h1 : is_rgba_with_alpha fg = false := by
    simp [is_rgba_with_alpha, hfa]
  have h2 : is_rgba_with_alpha bg = false := by
    simp [is_rgba_with_alpha, hba]
  unfold OptimizedBuffer.set_cell_with_alpha_blending
  simp [h1, h2]

/-- Witness for C2 at a concrete grid, position and opaque cell value. -/
theorem C2_opaque_blending_is_set_witness :
    wGrid.set_cell_with_alpha_blending pmId 1 0 66 ⟨1, 0, 1, 1⟩ ⟨0, 1, 1, 1⟩ 5 =
      wGrid.set 1 0 { char := 66, fg := ⟨1, 0, 1, 1⟩, bg := ⟨0, 1, 1, 1⟩, attributes := 5 } :=
  C2_opaque_blending_is_set pmId wGrid 1 0 66 ⟨1, 0, 1, 1⟩ ⟨0, 1, 1, 1⟩ 5
    (by decide) (by decide) (by decide) (by decide)

/-- `fn color_distance(a, b)`: squared RGB distance. -/
def color_distance (x y : RGBA) : ℚ :=
  let dr := x.r - y.r
  let dg := x.g - y.g
  let db := x.b - y.b
  dr * dr + dg * dg + db * db

/-- `fn closest_color_index(pixel, candidates)`: `0` when the pixel is at
least as close to the first candidate. -/
def closest_color_index (pixel : RGBA) (candidates : RGBA × RGBA) : ℕ :=
  if color_distance pixel candidates.1 ≤ color_distance pixel candidates.2 then 0
  else 1

/-- `fn average_color_rgba(pixels)`. -/
def average_color_rgba (pixels : List RGBA) : RGBA :=
  if pixels = [] then ⟨0, 0, 0, 0⟩
  else
    let sum_r := pixels.foldl (fun s p => s + p.r) 0
    let sum_g := pixels.foldl (fun s p => s + p.g) 0
    let sum_b := pixels.foldl (fun s p => s + p.b) 0
    let sum_a := pixels.foldl (fun s p => s + p.a) 0
    let len : ℚ := pixels.length
    ⟨sum_r / len, sum_g / len, sum_b / len, sum_a / len⟩

/-- `fn luminance(color)`: `0.2126 R + 0.7152 G + 0.0722 B`. -/
def luminance (color : RGBA) : ℚ :=
  (2126/10000) * color.r + (7152/10000) * color.g + (722/10000) * color.b

/-- The 16-entry `QUADRANT_CHARS` glyph table. -/
def QUADRANT_CHARS : List ℕ :=
  [32, 0x2597, 0x2596, 0x2584, 0x259D, 0x2590, 0x259E, 0x259F,
   0x2598, 0x259A, 0x258C, 0x2599, 0x2580, 0x259C, 0x259B, 0x2588]

/-- The four RGBA input pixels of the quadrant encoder, TL TR BL BR. -/
structure QuadPixels where
  tl : RGBA
  tr : RGBA
  bl : RGBA
  br : RGBA
deriving DecidableEq, Repr

/-- Indexing `pixels[i]` for the `[RGBA; 4]` input array. -/
def QuadPixels.at (q : QuadPixels) : ℕ → RGBA
  | 0 => q.tl
  | 1 => q.tr
  | 2 => q.bl
  | _ => q.br

/-- Step 1 of `render_quadrant_block`: the nested `i < j` loop that finds
the pair of pixels with maximal squared RGB distance, starting from the
pair `(0, 1)` and replacing it only on strict improvement. -/
def quadrant_pair_search (q : QuadPixels) : ℕ × ℕ × ℚ :=
  let pairs : List (ℕ × ℕ) := [(0, 1), (0, 2), (0, 3), (1, 2), (1, 3), (2, 3)]
  pairs.foldl
    (fun st ij =>
      let dist := color_distance (q.at ij.1) (q.at ij.2)
      if dist > st.2.2 then (ij.1, ij.2, dist) else st)
    (0, 1, color_distance (q.at 0) (q.at 1))

/-- Steps 2 of `render_quadrant_block`: order the winning pair by
luminance into (dark, light). -/
def quadrant_palette (q : QuadPixels) : RGBA × RGBA :=
  let search := quadrant_pair_search q
  let p_cand_a := q.at search.1
  let p_cand_b := q.at search.2.1
  if luminance p_cand_a ≤ luminance p_cand_b then (p_cand_a, p_cand_b)
  else (p_cand_b, p_cand_a)

/-- Step 3 of `render_quadrant_block`: classify each pixel against
(dark, light) and pack the choices with weights TL=8, TR=4, BL=2, BR=1. -/
def quadrant_bits (q : QuadPixels) : ℕ :=
  let palette := quadrant_palette q
  let bit_values : List ℕ := [8, 4, 2, 1]
  (List.range 4).foldl
    (fun bits i =>
      if closest_color_index (q.at i) palette = 0 then
        bits ||| bit_values.getD i 0
      else bits)
    0

/-- Result record of the quadrant encoder. -/
structure QuadrantResult where
  char : ℕ
  fg : RGBA
  bg : RGBA
deriving DecidableEq, Repr

/-- `fn render_quadrant_block(pixels: [RGBA; 4]) -> QuadrantResult`. -/
def render_quadrant_block (q : QuadPixels) : QuadrantResult :=
  let chosen_dark_color := (quadrant_palette q).1
  let chosen_light_color := (quadrant_palette q).2
  let bits := quadrant_bits q
  if bits = 0 then
    { char := 32, fg := chosen_dark_color,
      bg := average_color_rgba [q.tl, q.tr, q.bl, q.br] }
  else if bits = 15 then
    { char := QUADRANT_CHARS.getD 15 0,
      fg := average_color_rgba [q.tl, q.tr, q.bl, q.br],
      bg := chosen_light_color }
  else
    { char := QUADRANT_CHARS.getD bits 0, fg := chosen_dark_color,
      bg := chosen_light_color }

/-- Claim C4: on four identical pixels the maximal-distance pair has
distance 0, dark and light both equal that color, every pixel classifies
as dark (mask 15), and the encoder returns FULL BLOCK with fg the average
of the four pixels (that very color) and bg that color. -/
theorem C4_quadrant_uniform (c : RGBA) :
    (quadrant_pair_search ⟨c, c, c, c⟩).2.2 = 0 ∧
    quadrant_palette ⟨c, c, c, c⟩ = (c, c) ∧
    quadrant_bits ⟨c, c, c, c⟩ = 15 ∧
    average_color_rgba [c, c, c, c] = c ∧
    render_quadrant_block ⟨c, c, c, c⟩ = ⟨0x2588, c, c⟩ := by
  have hat : ∀ i, (QuadPixels.mk c c c c).at i = c := by
    intro i
    match i with
    | 0 => rfl
    | 1 => rfl
    | 2 => rfl
    | _ + 3 => rfl
  have hdist : color_distance c c = 0 := by
    simp [color_distance]
  have hsearch : quadrant_pair_search ⟨c, c, c, c⟩ = (0, 1, 0) := by
    simp [quadrant_pair_search, hat, hdist]
  have hpal : quadrant_palette ⟨c, c, c, c⟩ = (c, c) := by
    simp [quadrant_palette, hsearch, hat]
  have hbits : quadrant_bits ⟨c, c, c, c⟩ = 15 := by
    simp [quadrant_bits, hpal, hat, closest_color_index, List.range_succ]
  have havg : average_color_rgba [c, c, c, c] = c := by
    obtain ⟨r, g, bb, a⟩ := c
    simp only [average_color_rgba, List.foldl_cons, List.foldl_nil,
      List.length_cons, List.length_nil]
    rw [if_neg (by simp)]
    simp only [RGBA.mk.injEq]
    norm_num
    refine ⟨by ring, by ring, by ring, by ring⟩
  refine ⟨by rw [hsearch], hpal, hbits, havg, ?_⟩
  simp [render_quadrant_block, hpal, hbits, havg, QUADRANT_CHARS]

/-- `text_buffer.rs` error kinds. -/
inductive TextBufferError where
  | OutOfMemory
  | InvalidDimensions
  | InvalidIndex
deriving DecidableEq, Repr

/-- `pub const USE_DEFAULT_FG: u16 = 0x8000`. -/
def USE_DEFAULT_FG : ℕ := 0x8000

/-- `pub const USE_DEFAULT_BG: u16 = 0x4000`. -/
def USE_DEFAULT_BG : ℕ := 0x4000

/-- `pub const USE_DEFAULT_ATTR: u16 = 0x2000`. -/
def USE_DEFAULT_ATTR : ℕ := 0x2000

/-- `pub const ATTR_MASK: u16 = 0x00FF`. -/
def ATTR_MASK : ℕ := 0x00FF

/-- `TextSelection` from `buffer.rs`; the Rust field `end` is a Lean
keyword and is rendered `endIdx`. -/
structure TextSelection where
  start : ℕ
  endIdx : ℕ
  bgColor : Option RGBA
  fgColor : Option RGBA
deriving DecidableEq, Repr

/-- The styled text fragment buffer.  `length` is the capacity of the
four parallel arrays, `cursor` the logical length. -/
structure TextBuffer where
  char : List ℕ
  fg : List RGBA
  bg : List RGBA
  attributes : List ℕ
  length : ℕ
  cursor : ℕ
  selection : Option TextSelection
  default_fg : Option RGBA
  default_bg : Option RGBA
  default_attributes : Option ℕ
  line_starts : List ℕ
  line_widths : List ℕ
  current_line_width : ℕ
deriving DecidableEq, Repr

namespace TextBuffer

/-- `TextBuffer::init`. -/
def init (length : ℕ) : Except TextBufferError TextBuffer :=
  if length = 0 then .error .InvalidDimensions
  else .ok { char := List.replicate length 32
             fg := List.replicate length ⟨1, 1, 1, 1⟩
             bg := List.replicate length ⟨0, 0, 0, 0⟩
             attributes := List.replicate length 0
             length := length
             cursor := 0
             selection := none
             default_fg := none
             default_bg := none
             default_attributes := none
             line_starts := [0]
             line_widths := []
             current_line_width := 0 }

/-- `TextBuffer::set_cell`. -/
def set_cell (tb : TextBuffer) (index char : ℕ) (fg bg : RGBA) (attr : ℕ) :
    Except TextBufferError TextBuffer :=
  if index ≥ tb.length then .error .InvalidIndex
  else .ok { tb with char := tb.char.set index char
                     fg := tb.fg.set index fg
                     bg := tb.bg.set index bg
                     attributes := tb.attributes.set index attr }

/-- `Vec::resize(new_len, value)`: truncate or pad with `value`. -/
def listResize {α : Type} (l : List α) (n : ℕ) (value : α) : List α :=
  l.take n ++ List.replicate (n - l.length) value

/-- `TextBuffer::resize`. -/
def resize (tb : TextBuffer) (new_length : ℕ) : Except TextBufferError TextBuffer :=
  if new_length = tb.length then .ok tb
  else if new_length = 0 then .error .InvalidDimensions
  else .ok { tb with char := listResize tb.char new_length 32
                     fg := listResize tb.fg new_length ⟨1, 1, 1, 1⟩
                     bg := listResize tb.bg new_length ⟨0, 0, 0, 0⟩
                     attributes := listResize tb.attributes new_length 0
                     length := new_length }

/-- The per-scalar loop of `TextBuffer::write_chunk`: auto-resize by +256
when full, write the cell, do newline bookkeeping, advance the cursor,
count the scalar.  Returns the final buffer, the scalar count and the
was-resized flag. -/
def write_chunk_loop (chars : List ℕ) (tb : TextBuffer) (use_fg use_bg : RGBA)
    (attr_value count : ℕ) (was_resized : Bool) :
    Except TextBufferError (TextBuffer × ℕ × Bool) :=
  match chars with
  | [] => .ok (tb, count, was_resized)
  | codepoint :: rest =>
    let step : Except TextBufferError (TextBuffer × Bool) :=
      if tb.cursor ≥ tb.length then
        match tb.resize (tb.length + 256) with
        | .error e => .error e
        | .ok tb1 => .ok (tb1, true)
      else .ok (tb, was_resized)
    match step with
    | .error e => .error e
    | .ok (tb1, resized1) =>
      match tb1.set_cell tb1.cursor codepoint use_fg use_bg attr_value with
      | .error e => .error e
      | .ok tb2 =>
        let tb3 :=
          if codepoint = 10 then
            { tb2 with line_widths := tb2.line_widths ++ [tb2.current_line_width]
                       line_starts := tb2.line_starts ++ [tb2.cursor + 1]
                       current_line_width := 0 }
          else
            { tb2 with current_line_width := tb2.current_line_width + 1 }
        write_chunk_loop rest { tb3 with cursor := tb3.cursor + 1 }
          use_fg use_bg attr_value (count + 1) resized1

/-- `TextBuffer::write_chunk`.  The UTF-8 text is modelled as its list of
Unicode scalars.  Returns the new buffer and the packed `u32`
`(codepoint_count << 1) | resize_flag`. -/
def write_chunk (tb : TextBuffer) (text : List ℕ) (fg bg : Option RGBA)
    (attr : Option ℕ) : Except TextBufferError (TextBuffer × ℕ) :=
  let a0 : ℕ := 0
  let fgStep : RGBA × ℕ :=
    match fg with
    | some f => (f, a0)
    | none => (tb.default_fg.getD ⟨1, 1, 1, 1⟩, a0 ||| USE_DEFAULT_FG)
  let bgStep : RGBA × ℕ :=
    match bg with
    | some bgc => (bgc, fgStep.2)
    | none => (tb.default_bg.getD ⟨0, 0, 0, 0⟩, fgStep.2 ||| USE_DEFAULT_BG)
  let attr_value : ℕ :=
    match attr with
    | some a => bgStep.2 ||| a
    | none => (bgStep.2 ||| USE_DEFAULT_ATTR) ||| tb.default_attributes.getD 0
  match write_chunk_loop text tb fgStep.1 bgStep.1 attr_value 0 false with
  | .error e => .error e
  | .ok (tbf, count, was_resized) =>
    let resize_flag : ℕ := if was_resized then 1 else 0
    .ok (tbf, ((count <<< 1) ||| resize_flag) % 2 ^ 32)

/-- `TextBuffer::finalize_line_info`. -/
def finalize_line_info (tb : TextBuffer) : TextBuffer :=
  if tb.current_line_width > 0 ∨ tb.cursor = 0 then
    { tb with line_widths := tb.line_widths ++ [tb.current_line_width] }
  else tb

/-- `ptr::copy_nonoverlapping` pair of `TextBuffer::concat`: the first
`nA` items of `srcA` then the first `nB` items of `srcB`, overwriting the
front of `dst`. -/
def copy_two {α : Type} (dst srcA srcB : List α) (nA nB : ℕ) : List α :=
  srcA.take nA ++ srcB.take nB ++ dst.drop (nA + nB)

/-- `TextBuffer::concat`. -/
def concat (a other : TextBuffer) : Except TextBufferError TextBuffer :=
  let new_length := a.cursor + other.cursor
  match TextBuffer.init new_length with
  | .error e => .error e
  | .ok result =>
    .ok { result with
            char := copy_two result.char a.char other.char a.cursor other.cursor
            fg := copy_two result.fg a.fg other.fg a.cursor other.cursor
            bg := copy_two result.bg a.bg other.bg a.cursor other.cursor
            attributes := copy_two result.attributes a.attributes other.attributes
              a.cursor other.cursor
            cursor := new_length
            line_starts := a.line_starts ++ (other.line_starts.drop 1).map (· + a.cursor)
            line_widths := a.line_widths ++ other.line_widths
            current_line_width := other.current_line_width }

/-- Run a sequence of `write_chunk` calls in order. -/
def write_chunks (tb : TextBuffer)
    (chunks : List (List ℕ × Option RGBA × Option RGBA × Option ℕ)) :
    Except TextBufferError TextBuffer :=
  match chunks with
  | [] => .ok tb
  | chunk :: rest =>
    match tb.write_chunk chunk.1 chunk.2.1 chunk.2.2.1 chunk.2.2.2 with
    | .error e => .error e
    | .ok (tb1, _) => tb1.write_chunks rest

end TextBuffer

/-- The in-progress line width after processing the scalars `cs`,
starting from width `w`: reset on newline, incremented otherwise. -/
def clwAfter (w : ℕ) : List ℕ → ℕ
  | [] => w
  | c :: cs => clwAfter (if c = 10 then 0 else w + 1) cs

theorem clwAfter_append (w : ℕ) (xs ys : List ℕ) :
    clwAfter w (xs ++ ys) = clwAfter (clwAfter w xs) ys := by
  induction xs generalizing w with
  | nil => rfl
  | cons c cs ih => simp [clwAfter, ih]

/-- Proof helper: the state produced by one iteration of the
`write_chunk` loop body after the capacity check succeeded (write the
cell at the cursor, newline bookkeeping, advance the cursor). -/
def TextBuffer.advance (tb : TextBuffer) (codepoint : ℕ) (use_fg use_bg : RGBA)
    (attr_value : ℕ) : TextBuffer :=
  let tb2 : TextBuffer :=
    { tb with char := tb.char.set tb.cursor codepoint
              fg := tb.fg.set tb.cursor use_fg
              bg := tb.bg.set tb.cursor use_bg
              attributes := tb.attributes.set tb.cursor attr_value }
  let tb3 :=
    if codepoint = 10 then
      { tb2 with line_widths := tb2.line_widths ++ [tb2.current_line_width]
                 line_starts := tb2.line_starts ++ [tb2.cursor + 1]
                 current_line_width := 0 }
    else
      { tb2 with current_line_width := tb2.current_line_width + 1 }
  { tb3 with cursor := tb3.cursor + 1 }

/-- Proof helper: the state produced by the auto-resize (`capacity + 256`)
inside `write_chunk`. -/
def TextBuffer.grow256 (tb : TextBuffer) : TextBuffer :=
  { tb with char := TextBuffer.listResize tb.char (tb.length + 256) 32
            fg := TextBuffer.listResize tb.fg (tb.length + 256) ⟨1, 1, 1, 1⟩
            bg := TextBuffer.listResize tb.bg (tb.length + 256) ⟨0, 0, 0, 0⟩
            attributes := TextBuffer.listResize tb.attributes (tb.length + 256) 0
            length := tb.length + 256 }

theorem TextBuffer.write_chunk_loop_cons_notfull (tb : TextBuffer)
    (codepoint : ℕ) (rest : List ℕ) (use_fg use_bg : RGBA)
    (attr_value count : ℕ) (was_resized : Bool)
    (h : tb.cursor < tb.length) :
    TextBuffer.write_chunk_loop (codepoint :: rest) tb use_fg use_bg attr_value
        count was_resized =
      TextBuffer.write_chunk_loop rest (tb.advance codepoint use_fg use_bg attr_value)
        use_fg use_bg attr_value (count + 1) was_resized := by
  have h1 : ¬ tb.cursor ≥ tb.length := by omega
  conv_lhs => rw [TextBuffer.write_chunk_loop]
  simp only [if_neg h1, TextBuffer.set_cell]
  rfl

theorem TextBuffer.write_chunk_loop_cons_full (tb : TextBuffer)
    (codepoint : ℕ) (rest : List ℕ) (use_fg use_bg : RGBA)
    (attr_value count : ℕ) (was_resized : Bool)
    (h : tb.cursor = tb.length) :
    TextBuffer.write_chunk_loop (codepoint :: rest) tb use_fg use_bg attr_value
        count was_resized =
      TextBuffer.write_chunk_loop rest
        (tb.grow256.advance codepoint use_fg use_bg attr_value)
        use_fg use_bg attr_value (count + 1) true := by
  have h1 : tb.cursor ≥ tb.length := by omega
  have h2 : ¬ (tb.length + 256 = tb.length) := by omega
  have h3 : ¬ (tb.length + 256 = 0) := by omega
  have h4 : ¬ (tb.grow256.cursor ≥ tb.grow256.length) := by
    simp only [TextBuffer.grow256]
    omega
  conv_lhs => rw [TextBuffer.write_chunk_loop]
  simp only [if_pos h1, TextBuffer.resize, if_neg h2, if_neg h3,
    TextBuffer.set_cell]
  rw [if_neg (by simpa [TextBuffer.grow256] using h4)]
  rfl

theorem TextBuffer.advance_fields (tb : TextBuffer) (codepoint : ℕ)
    (use_fg use_bg : RGBA) (attr_value : ℕ) :
    (tb.advance codepoint use_fg use_bg attr_value).cursor = tb.cursor + 1 ∧
    (tb.advance codepoint use_fg use_bg attr_value).length = tb.length ∧
    (tb.advance codepoint use_fg use_bg attr_value).line_starts.length =
      tb.line_starts.length + (if codepoint = 10 then 1 else 0) ∧
    (tb.advance codepoint use_fg use_bg attr_value).line_widths.length =
      tb.line_widths.length + (if codepoint = 10 then 1 else 0) ∧
    (tb.advance codepoint use_fg use_bg attr_value).current_line_width =
      (if codepoint = 10 then 0 else tb.current_line_width + 1) := by
  by_cases hc : codepoint = 10 <;> simp [TextBuffer.advance, hc]

theorem TextBuffer.grow256_fields (tb : TextBuffer) :
    tb.grow256.cursor = tb.cursor ∧
    tb.grow256.length = tb.length + 256 ∧
    tb.grow256.line_starts = tb.line_starts ∧
    tb.grow256.line_widths = tb.line_widths ∧
    tb.grow256.current_line_width = tb.current_line_width := by
  simp [TextBuffer.grow256]

/-- Behaviour of the `write_chunk` per-scalar loop from any state whose
cursor does not exceed the capacity: it succeeds, counts every scalar,
reports a resize exactly when the capacity grew, and maintains the line
bookkeeping. -/
theorem TextBuffer.write_chunk_loop_spec (chars : List ℕ) (tb : TextBuffer)
    (use_fg use_bg : RGBA) (attr_value count : ℕ) (was_resized : Bool)
    (hcur : tb.cursor ≤ tb.length) :
    ∃ tbf, TextBuffer.write_chunk_loop chars tb use_fg use_bg attr_value count was_resized =
        .ok (tbf, count + chars.length,
             was_resized || decide (tb.length < tbf.length)) ∧
      tbf.cursor = tb.cursor + chars.length ∧
      tbf.cursor ≤ tbf.length ∧
      tb.length ≤ tbf.length ∧
      tbf.line_starts.length = tb.line_starts.length + chars.count 10 ∧
      tbf.line_widths.length = tb.line_widths.length + chars.count 10 ∧
      tbf.current_line_width = clwAfter tb.current_line_width chars := by
  induction chars generalizing tb count was_resized with
  | nil =>
    refine ⟨tb, ?_, by simp, hcur, le_refl _, by simp, by simp, rfl⟩
    simp [TextBuffer.write_chunk_loop]
  | cons codepoint rest ih =>
    by_cases hfull : tb.cursor < tb.length
    · -- room left: no resize this iteration
      obtain ⟨hc1, hc2, hc3, hc4, hc5⟩ :=
        tb.advance_fields codepoint use_fg use_bg attr_value
      have hcurA : (tb.advance codepoint use_fg use_bg attr_value).cursor ≤
          (tb.advance codepoint use_fg use_bg attr_value).length := by
        rw [hc1, hc2]; omega
      obtain ⟨tbf, hrun, h1, h2, h3, h4, h5, h6⟩ :=
        ih (tb.advance codepoint use_fg use_bg attr_value) (count + 1) was_resized hcurA
      have hcursor : tbf.cursor = tb.cursor + (codepoint :: rest).length := by
        rw [h1, hc1, List.length_cons]; omega
      have hlength : tb.length ≤ tbf.length := by rw [← hc2]; exact h3
      refine ⟨tbf, ?_, hcursor, h2, hlength, ?_, ?_, ?_⟩
      · rw [TextBuffer.write_chunk_loop_cons_notfull tb codepoint rest use_fg use_bg
          attr_value count was_resized hfull, hrun]
        have hlen : count + 1 + rest.length = count + (codepoint :: rest).length := by
          simp; omega
        rw [hlen, hc2]
      · rw [h4, hc3, List.count_cons]
        by_cases hc : codepoint = 10 <;> simp [hc] <;> omega
      · rw [h5, hc4, List.count_cons]
        by_cases hc : codepoint = 10 <;> simp [hc] <;> omega
      · rw [h6, hc5, clwAfter]
    · -- buffer full: resize by 256 first
      have heq : tb.cursor = tb.length := by omega
      obtain ⟨hg1, hg2, hg3, hg4, hg5⟩ := tb.grow256_fields
      obtain ⟨hc1, hc2, hc3, hc4, hc5⟩ :=
        tb.grow256.advance_fields codepoint use_fg use_bg attr_value
      have hcurA : (tb.grow256.advance codepoint use_fg use_bg attr_value).cursor ≤
          (tb.grow256.advance codepoint use_fg use_bg attr_value).length := by
        rw [hc1, hc2, hg1, hg2]; omega
      obtain ⟨tbf, hrun, h1, h2, h3, h4, h5, h6⟩ :=
        ih (tb.grow256.advance codepoint use_fg use_bg attr_value) (count + 1) true hcurA
      have hgrew : tb.length < tbf.length := by
        rw [hg2] at hc2
        omega
      have hcursor : tbf.cursor = tb.cursor + (codepoint :: rest).length := by
        rw [h1, hc1, hg1, List.length_cons]; omega
      refine ⟨tbf, ?_, hcursor, h2, le_of_lt hgrew, ?_, ?_, ?_⟩
      · rw [TextBuffer.write_chunk_loop_cons_full tb codepoint rest use_fg use_bg
          attr_value count was_resized heq, hrun]
        have hlen : count + 1 + rest.length = count + (codepoint :: rest).length := by
          simp; omega
        rw [hlen]
        have hflag : (decide (tb.length < tbf.length)) = true := by
          simpa using hgrew
        simp [hflag]
      · rw [h4, hc3, hg3, List.count_cons]
        by_cases hc : codepoint = 10 <;> simp [hc] <;> omega
      · rw [h5, hc4, hg4, List.count_cons]
        by_cases hc : codepoint = 10 <;> simp [hc] <;> omega
      · rw [h6, hc5, hg5, clwAfter]

theorem two_mul_lor_one (n : ℕ) : 2 * n ||| 1 = 2 * n + 1 := by
  have h := Nat.lor_bit false n true 0
  simpa [Nat.bit] using h

/-- Proof helper: the per-chunk foreground picked by `write_chunk`. -/
def TextBuffer.wcFG (tb : TextBuffer) (fg : Option RGBA) : RGBA :=
  match fg with
  | some f => f
  | none => tb.default_fg.getD ⟨1, 1, 1, 1⟩

/-- Proof helper: the per-chunk background picked by `write_chunk`. -/
def TextBuffer.wcBG (tb : TextBuffer) (bg : Option RGBA) : RGBA :=
  match bg with
  | some bgc => bgc
  | none => tb.default_bg.getD ⟨0, 0, 0, 0⟩

/-- Proof helper: the accumulated default-use flags of `write_chunk`
after the fg and bg steps. -/
def TextBuffer.wcA2 (fg bg : Option RGBA) : ℕ :=
  let a1 := match fg with | some _ => (0 : ℕ) | none => 0 ||| USE_DEFAULT_FG
  match bg with | some _ => a1 | none => a1 ||| USE_DEFAULT_BG

/-- Proof helper: the full 16-bit attribute value `write_chunk` stores. -/
def TextBuffer.wcAV (tb : TextBuffer) (fg bg : Option RGBA) (attr : Option ℕ) : ℕ :=
  match attr with
  | some a => TextBuffer.wcA2 fg bg ||| a
  | none => (TextBuffer.wcA2 fg bg ||| USE_DEFAULT_ATTR) |||
      tb.default_attributes.getD 0

theorem TextBuffer.write_chunk_eq_loop (tb : TextBuffer) (text : List ℕ)
    (fg bg : Option RGBA) (attr : Option ℕ) :
    tb.write_chunk text fg bg attr =
      match TextBuffer.write_chunk_loop text tb (tb.wcFG fg) (tb.wcBG bg)
          (tb.wcAV fg bg attr) 0 false with
      | .error e => .error e
      | .ok (tbf, count, was_resized) =>
        .ok (tbf, ((count <<< 1) ||| (if was_resized then 1 else 0)) % 2 ^ 32) := by
  cases fg <;> cases bg <;> cases attr <;> rfl

/-- Behaviour of `write_chunk` from any state whose cursor does not
exceed the capacity. -/
theorem TextBuffer.write_chunk_spec (tb : TextBuffer) (text : List ℕ)
    (fg bg : Option RGBA) (attr : Option ℕ) (hcur : tb.cursor ≤ tb.length) :
    ∃ tbf, tb.write_chunk text fg bg attr =
        .ok (tbf, ((text.length <<< 1) |||
            (if tb.length < tbf.length then 1 else 0)) % 2 ^ 32) ∧
      tbf.cursor = tb.cursor + text.length ∧
      tbf.cursor ≤ tbf.length ∧
      tb.length ≤ tbf.length ∧
      tbf.line_starts.length = tb.line_starts.length + text.count 10 ∧
      tbf.line_widths.length = tb.line_widths.length + text.count 10 ∧
      tbf.current_line_width = clwAfter tb.current_line_width text := by
  obtain ⟨tbf, hrun, h1, h2, h3, h4, h5, h6⟩ :=
    TextBuffer.write_chunk_loop_spec text tb (tb.wcFG fg) (tb.wcBG bg)
      (tb.wcAV fg bg attr) 0 false hcur
  refine ⟨tbf, ?_, h1, h2, h3, h4, h5, h6⟩
  rw [TextBuffer.write_chunk_eq_loop, hrun]
  simp only [Bool.false_or, Nat.zero_add, decide_eq_true_eq]

/-- Claim C7: `write_chunk` writing `N` scalars returns the packed `u32`
`(N << 1) | resized`, whose low bit is 1 exactly when the capacity grew
during the call and whose upper 31 bits are `N` (here `N < 2^31`, so the
`u32` packing does not truncate). -/
theorem C7_write_chunk_packed_return (tb : TextBuffer) (text : List ℕ)
    (fg bg : Option RGBA) (attr : Option ℕ)
    (hcur : tb.cursor ≤ tb.length) (hN : text.length < 2 ^ 31) :
    ∃ tbf ret, tb.write_chunk text fg bg attr = .ok (tbf, ret) ∧
      ret = (text.length <<< 1) ||| (if tb.length < tbf.length then 1 else 0) ∧
      ret % 2 = (if tb.length < tbf.length then 1 else 0) ∧
      ret / 2 = text.length := by
  obtain ⟨tbf, hrun, -, -, -, -, -, -⟩ :=
    TextBuffer.write_chunk_spec tb text fg bg attr hcur
  have hshift : text.length <<< 1 = 2 * text.length := by
    rw [Nat.shiftLeft_eq]; ring
  have hNn : text.length < 2147483648 := by
    have h31 : (2 : ℕ) ^ 31 = 2147483648 := by norm_num
    rw [h31] at hN; exact hN
  set flag : ℕ := if tb.length < tbf.length then 1 else 0 with hflag
  have hflag01 : flag = 0 ∨ flag = 1 := by
    by_cases hlt : tb.length < tbf.length <;> simp [hflag, hlt]
  have hval : (text.length <<< 1) ||| flag = 2 * text.length + flag := by
    rcases hflag01 with h | h
    · rw [h, hshift]; simp
    · rw [h, hshift, two_mul_lor_one]
  have hmod : ((text.length <<< 1) ||| flag) % 2 ^ 32 = 2 * text.length + flag := by
    rw [hval]
    apply Nat.mod_eq_of_lt
    have h32 : (2 : ℕ) ^ 32 = 4294967296 := by norm_num
    rw [h32]
    rcases hflag01 with h | h <;> omega
  refine ⟨tbf, ((text.length <<< 1) ||| flag) % 2 ^ 32, hrun, ?_, ?_, ?_⟩
  · rw [hmod, hval]
  · rw [hmod]
    rcases hflag01 with h | h <;> rw [h] <;> omega
  · rw [hmod]
    rcases hflag01 with h | h <;> rw [h] <;> omega

/-- A sample text buffer of capacity 2 used by concrete witnesses. -/
def wTB : TextBuffer :=
  { char := [32, 32]
    fg := [⟨1, 1, 1, 1⟩, ⟨1, 1, 1, 1⟩]
    bg := [⟨0, 0, 0, 0⟩, ⟨0, 0, 0, 0⟩]
    attributes := [0, 0]
    length := 2
    cursor := 0
    selection := none
    default_fg := none
    default_bg := none
    default_attributes := none
    line_starts := [0]
    line_widths := []
    current_line_width := 0 }

/-- Witness for C7: writing three scalars into a capacity-2 buffer. -/
theorem C7_write_chunk_packed_return_witness :
    ∃ tbf ret, wTB.write_chunk [72, 73, 74] none none none = .ok (tbf, ret) ∧
      ret = (([72, 73, 74] : List ℕ).length <<< 1) |||
        (if wTB.length < tbf.length then 1 else 0) ∧
      ret % 2 = (if wTB.length < tbf.length then 1 else 0) ∧
      ret / 2 = ([72, 73, 74] : List ℕ).length :=
  C7_write_chunk_packed_return wTB [72, 73, 74] none none none
    (by decide) (by decide)

/-- Behaviour of a whole sequence of `write_chunk` calls: the line tables
and the in-progress width depend only on the concatenation of the written
scalars. -/
theorem TextBuffer.write_chunks_spec
    (chunks : List (List ℕ × Option RGBA × Option RGBA × Option ℕ))
    (tb : TextBuffer) (hcur : tb.cursor ≤ tb.length) :
    ∃ tbf, tb.write_chunks chunks = .ok tbf ∧
      tbf.cursor = tb.cursor + ((chunks.map (·.1)).flatten).length ∧
      tbf.cursor ≤ tbf.length ∧
      tbf.line_starts.length =
        tb.line_starts.length + ((chunks.map (·.1)).flatten).count 10 ∧
      tbf.line_widths.length =
        tb.line_widths.length + ((chunks.map (·.1)).flatten).count 10 ∧
      tbf.current_line_width =
        clwAfter tb.current_line_width ((chunks.map (·.1)).flatten) := by
  induction chunks generalizing tb with
  | nil =>
    exact ⟨tb, by simp [TextBuffer.write_chunks], by simp, hcur, by simp, by simp, rfl⟩
  | cons chunk rest ih =>
    obtain ⟨tb1, hrun1, h1, h2, h3, h4, h5, h6⟩ :=
      TextBuffer.write_chunk_spec tb chunk.1 chunk.2.1 chunk.2.2.1 chunk.2.2.2 hcur
    obtain ⟨tbf, hrunR, g1, g2, g3, g4, g5⟩ := ih tb1 h2
    refine ⟨tbf, ?_, ?_, g2, ?_, ?_, ?_⟩
    · rw [TextBuffer.write_chunks, hrun1]
      exact hrunR
    · rw [g1, h1]
      simp [List.length_append]
      omega
    · rw [g3, h4]
      simp [List.count_append]
      omega
    · rw [g4, h5]
      simp [List.count_append]
      omega
    · rw [g5, h6]
      simp only [List.map_cons, List.flatten_cons, clwAfter_append]

/-- Claim C3: from a freshly initialized buffer, after any sequence of
`write_chunk` calls whose texts together contain exactly K newlines and
one `finalize_line_info`, `line_starts` has K+1 entries, and
`line_widths` has K entries when the last written scalar was a newline
(buffer non-empty) and K+1 entries otherwise (in particular one entry for
the empty buffer). -/
theorem C3_line_index_law (n : ℕ) (hn : n ≠ 0)
    (chunks : List (List ℕ × Option RGBA × Option RGBA × Option ℕ)) :
    ∃ tb0 tbf, TextBuffer.init n = .ok tb0 ∧
      tb0.write_chunks chunks = .ok tbf ∧
      tbf.finalize_line_info.line_starts.length =
        ((chunks.map (·.1)).flatten).count 10 + 1 ∧
      tbf.finalize_line_info.line_widths.length =
        (if (chunks.map (·.1)).flatten ≠ [] ∧
            ((chunks.map (·.1)).flatten).getLast? = some 10
         then ((chunks.map (·.1)).flatten).count 10
         else ((chunks.map (·.1)).flatten).count 10 + 1) := by
  set ws : List ℕ := (chunks.map (·.1)).flatten with hws
  set tb0 : TextBuffer :=
    { char := List.replicate n 32
      fg := List.replicate n ⟨1, 1, 1, 1⟩
      bg := List.replicate n ⟨0, 0, 0, 0⟩
      attributes := List.replicate n 0
      length := n
      cursor := 0
      selection := none
      default_fg := none
      default_bg := none
      default_attributes := none
      line_starts := [0]
      line_widths := []
      current_line_width := 0 } with htb0
  have hinit : TextBuffer.init n = .ok tb0 := by
    unfold TextBuffer.init
    rw [if_neg hn]
  have hcur0 : tb0.cursor ≤ tb0.length := by simp [htb0]
  obtain ⟨tbf, hrun, g1, g2, g3, g4, g5⟩ :=
    TextBuffer.write_chunks_spec chunks tb0 hcur0
  rw [← hws] at g1 g3 g4 g5
  have hstarts : tbf.line_starts.length = ws.count 10 + 1 := by
    rw [g3]; simp [htb0]; omega
  have hwidths : tbf.line_widths.length = ws.count 10 := by
    rw [g4]; simp [htb0]
  have hcursor : tbf.cursor = ws.length := by
    rw [g1]; simp [htb0]
  have hclw : tbf.current_line_width = clwAfter 0 ws := by
    rw [g5]
  refine ⟨tb0, tbf, hinit, hrun, ?_, ?_⟩
  · -- line_starts is untouched by finalize_line_info
    unfold TextBuffer.finalize_line_info
    by_cases hpush : tbf.current_line_width > 0 ∨ tbf.cursor = 0
    · rw [if_pos hpush]
      exact hstarts
    · rw [if_neg hpush]
      exact hstarts
  · rcases List.eq_nil_or_concat ws with hnil | ⟨l, c, hcat⟩
    · -- empty buffer: exactly one width entry
      have hc0 : tbf.cursor = 0 := by rw [hcursor, hnil]; rfl
      unfold TextBuffer.finalize_line_info
      rw [if_pos (Or.inr hc0)]
      simp [hwidths, hnil]
    · have hcat2 : ws = l ++ [c] := by rw [hcat]; simp
      have hlast : ws.getLast? = some c := by rw [hcat2]; exact List.getLast?_concat l
      have hne : ws ≠ [] := by rw [hcat2]; simp
      have hclw2 : tbf.current_line_width = if c = 10 then 0 else clwAfter 0 l + 1 := by
        rw [hclw, hcat2, clwAfter_append]
        by_cases hc : c = 10 <;> simp [clwAfter, hc]
      have hcne : tbf.cursor ≠ 0 := by
        rw [hcursor, hcat2]
        simp
      by_cases hc : c = 10
      · -- buffer ends in a newline: no extra width entry
        unfold TextBuffer.finalize_line_info
        rw [if_neg (by rw [hclw2, if_pos hc]; omega)]
        rw [hwidths, if_pos ⟨hne, by rw [hlast, hc]⟩]
      · -- buffer ends in a regular scalar: one extra width entry
        unfold TextBuffer.finalize_line_info
        rw [if_pos (Or.inl (by rw [hclw2, if_neg hc]; omega))]
        have hcond : ¬(ws ≠ [] ∧ ws.getLast? = some 10) := by
          rintro ⟨-, hl⟩
          rw [hlast] at hl
          exact hc (by injection hl)
        rw [if_neg hcond]
        simp [hwidths]

/-- A concrete chunk sequence (three scalars, one newline) used by the
C3 witness. -/
def wChunks : List (List ℕ × Option RGBA × Option RGBA × Option ℕ) :=
  [([72, 10, 105], none, none, none)]

/-- Witness for C3 at a concrete chunk sequence containing one newline. -/
theorem C3_line_index_law_witness :
    ∃ tb0 tbf, TextBuffer.init 4 = .ok tb0 ∧
      tb0.write_chunks wChunks = .ok tbf ∧
      tbf.finalize_line_info.line_starts.length =
        ((wChunks.map (·.1)).flatten).count 10 + 1 ∧
      tbf.finalize_line_info.line_widths.length =
        (if (wChunks.map (·.1)).flatten ≠ [] ∧
            ((wChunks.map (·.1)).flatten).getLast? = some 10
         then ((wChunks.map (·.1)).flatten).count 10
         else ((wChunks.map (·.1)).flatten).count 10 + 1) :=
  C3_line_index_law 4 (by decide) wChunks

/-- Claim C10: concatenating two empty text buffers fails with
`InvalidDimensions`, because the result buffer is initialized with
capacity `a.cursor + b.cursor = 0`. -/
theorem C10_concat_empty_error (a b : TextBuffer)
    (ha : a.cursor = 0) (hb : b.cursor = 0) :
    a.concat b = .error .InvalidDimensions := by
  unfold TextBuffer.concat TextBuffer.init
  rw [ha, hb]
  simp

/-- Witness for C10 on a concrete empty buffer. -/
theorem C10_concat_empty_error_witness :
    wTB.concat wTB = .error .InvalidDimensions :=
  C10_concat_empty_error wTB wTB rfl rfl

namespace OptimizedBuffer

/-- Field-selective cell write used by the non-blending paths of
`draw_text`: char, fg and attributes are written, bg only when one was
supplied (the `None` case of the source skips the bg array). -/
def writeTextCell (cells : List Cell) (idx ch : ℕ) (fg : RGBA) (bg : Option RGBA)
    (attributes : ℕ) : List Cell :=
  match cells[idx]? with
  | none => cells
  | some c =>
    cells.set idx { char := ch, fg := fg, bg := bg.getD c.bg, attributes := attributes }

/-- The ASCII fast path of `draw_text`: contiguous writes starting at
index `row_start + x`. -/
def draw_text_fast (bytes : List ℕ) (b : OptimizedBuffer) (idx : ℕ) (fg : RGBA)
    (bg : Option RGBA) (attributes : ℕ) : OptimizedBuffer :=
  match bytes with
  | [] => b
  | byte :: rest =>
    draw_text_fast rest
      { b with cells := writeTextCell b.cells idx byte fg bg attributes }
      (idx + 1) fg bg attributes

/-- The non-ASCII path of `draw_text`: per-scalar writes, stopping at the
right edge. -/
def draw_text_utf8 (chars : List ℕ) (b : OptimizedBuffer) (curr_x y : ℕ)
    (fg : RGBA) (bg : Option RGBA) (attributes : ℕ) : OptimizedBuffer :=
  match chars with
  | [] => b
  | ch :: rest =>
    if curr_x ≥ b.width then b
    else
      draw_text_utf8 rest
        { b with cells := writeTextCell b.cells (y * b.width + curr_x) ch fg bg attributes }
        (curr_x + 1) y fg bg attributes

/-- The alpha-blending path of `draw_text` (taken when a translucent bg
was supplied). -/
def draw_text_alpha (pm : PowModel) (chars : List ℕ) (b : OptimizedBuffer)
    (curr_x y : ℕ) (fg : RGBA) (bg : Option RGBA) (attributes : ℕ) : OptimizedBuffer :=
  match chars with
  | [] => b
  | ch :: rest =>
    if curr_x ≥ b.width then b
    else
      draw_text_alpha pm rest
        (b.set_cell_with_alpha_blending pm curr_x y ch fg (bg.getD ⟨0, 0, 0, 0⟩) attributes)
        (curr_x + 1) y fg bg attributes

/-- `OptimizedBuffer::draw_text`.  The text is modelled as its list of
Unicode scalars; `is_ascii` becomes "all scalars below 128". -/
def draw_text (pm : PowModel) (b : OptimizedBuffer) (text : List ℕ) (x y : ℕ)
    (fg : RGBA) (bg : Option RGBA) (attributes : ℕ) : OptimizedBuffer :=
  if x ≥ b.width ∨ y ≥ b.height ∨ text = [] then b
  else
    let max_chars := b.width - x
    let needs_alpha_blending :=
      match bg with
      | some bg_color => is_rgba_with_alpha bg_color
      | none => false
    if needs_alpha_blending then
      draw_text_alpha pm text b x y fg bg attributes
    else
      let row_start := y * b.width
      if text.all (· < 128) then
        let to_draw := min text.length max_chars
        draw_text_fast (text.take to_draw) b (row_start + x) fg bg attributes
      else
        draw_text_utf8 text b x y fg bg attributes

end OptimizedBuffer

theorem OptimizedBuffer.writeTextCell_bg_none (cells : List Cell) (idx ch : ℕ)
    (fg : RGBA) (attributes : ℕ) (i : ℕ) :
    ((OptimizedBuffer.writeTextCell cells idx ch fg none attributes)[i]?).map Cell.bg =
      (cells[i]?).map Cell.bg := by
  unfold OptimizedBuffer.writeTextCell
  cases h : cells[idx]? with
  | none => rfl
  | some c =>
    rw [List.getElem?_set]
    by_cases hi : idx = i
    · subst hi
      rw [if_pos rfl, if_pos (List.getElem?_eq_some_iff.mp h).1, h]
      rfl
    · rw [if_neg hi]

theorem OptimizedBuffer.writeTextCell_ne (cells : List Cell) (idx ch : ℕ)
    (fg : RGBA) (bg : Option RGBA) (attributes : ℕ) (i : ℕ) (h : i ≠ idx) :
    (OptimizedBuffer.writeTextCell cells idx ch fg bg attributes)[i]? = cells[i]? := by
  unfold OptimizedBuffer.writeTextCell
  cases hx : cells[idx]? with
  | none => rfl
  | some c => rw [List.getElem?_set, if_neg (fun hh => h hh.symm)]

theorem OptimizedBuffer.draw_text_fast_dims (bytes : List ℕ) (b : OptimizedBuffer)
    (idx : ℕ) (fg : RGBA) (bg : Option RGBA) (attributes : ℕ) :
    (OptimizedBuffer.draw_text_fast bytes b idx fg bg attributes).width = b.width ∧
    (OptimizedBuffer.draw_text_fast bytes b idx fg bg attributes).height = b.height := by
  induction bytes generalizing b idx with
  | nil => exact ⟨rfl, rfl⟩
  | cons byte rest ih => exact ih _ _

theorem OptimizedBuffer.draw_text_fast_bg (bytes : List ℕ) (b : OptimizedBuffer)
    (idx : ℕ) (fg : RGBA) (attributes : ℕ) (i : ℕ) :
    ((OptimizedBuffer.draw_text_fast bytes b idx fg none attributes).cells[i]?).map Cell.bg =
      (b.cells[i]?).map Cell.bg := by
  induction bytes generalizing b idx with
  | nil => rfl
  | cons byte rest ih =>
    rw [OptimizedBuffer.draw_text_fast, ih]
    exact OptimizedBuffer.writeTextCell_bg_none b.cells idx byte fg attributes i

theorem OptimizedBuffer.draw_text_fast_untouched (bytes : List ℕ) (b : OptimizedBuffer)
    (idx : ℕ) (fg : RGBA) (bg : Option RGBA) (attributes : ℕ) (i : ℕ)
    (h : i < idx ∨ idx + bytes.length ≤ i) :
    (OptimizedBuffer.draw_text_fast bytes b idx fg bg attributes).cells[i]? =
      b.cells[i]? := by
  induction bytes generalizing b idx with
  | nil => rfl
  | cons byte rest ih =>
    rw [List.length_cons] at h
    rw [OptimizedBuffer.draw_text_fast,
      ih _ _ (by omega)]
    exact OptimizedBuffer.writeTextCell_ne b.cells idx byte fg bg attributes i (by omega)

theorem OptimizedBuffer.draw_text_utf8_dims (chars : List ℕ) (b : OptimizedBuffer)
    (curr_x y : ℕ) (fg : RGBA) (bg : Option RGBA) (attributes : ℕ) :
    (OptimizedBuffer.draw_text_utf8 chars b curr_x y fg bg attributes).width = b.width ∧
    (OptimizedBuffer.draw_text_utf8 chars b curr_x y fg bg attributes).height = b.height := by
  induction chars generalizing b curr_x with
  | nil => exact ⟨rfl, rfl⟩
  | cons ch rest ih =>
    rw [OptimizedBuffer.draw_text_utf8]
    by_cases hw : curr_x ≥ b.width
    · rw [if_pos hw]
      exact ⟨rfl, rfl⟩
    · rw [if_neg hw]
      exact ih _ _

theorem OptimizedBuffer.draw_text_utf8_bg (chars : List ℕ) (b : OptimizedBuffer)
    (curr_x y : ℕ) (fg : RGBA) (attributes : ℕ) (i : ℕ) :
    ((OptimizedBuffer.draw_text_utf8 chars b curr_x y fg none attributes).cells[i]?).map Cell.bg =
      (b.cells[i]?).map Cell.bg := by
  induction chars generalizing b curr_x with
  | nil => rfl
  | cons ch rest ih =>
    rw [OptimizedBuffer.draw_text_utf8]
    by_cases hw : curr_x ≥ b.width
    · rw [if_pos hw]
    · rw [if_neg hw, ih]
      exact OptimizedBuffer.writeTextCell_bg_none b.cells (y * b.width + curr_x)
        ch fg attributes i

theorem OptimizedBuffer.draw_text_utf8_untouched (chars : List ℕ) (b : OptimizedBuffer)
    (curr_x y : ℕ) (fg : RGBA) (bg : Option RGBA) (attributes : ℕ) (i : ℕ)
    (h : i < y * b.width + curr_x ∨ y * b.width + b.width ≤ i ∨
      y * b.width + curr_x + chars.length ≤ i) :
    (OptimizedBuffer.draw_text_utf8 chars b curr_x y fg bg attributes).cells[i]? =
      b.cells[i]? := by
  induction chars generalizing b curr_x with
  | nil => rfl
  | cons ch rest ih =>
    rw [List.length_cons] at h
    rw [OptimizedBuffer.draw_text_utf8]
    by_cases hw : curr_x ≥ b.width
    · rw [if_pos hw]
    · rw [if_neg hw, ih _ _ (by
        show i < y * b.width + (curr_x + 1) ∨ y * b.width + b.width ≤ i ∨
          y * b.width + (curr_x + 1) + rest.length ≤ i
        omega)]
      exact OptimizedBuffer.writeTextCell_ne b.cells (y * b.width + curr_x)
        ch fg bg attributes i (by omega)

/-- Row-major index arithmetic: a position on another row, left of the
text start, or at or beyond `x + n` has an index below the write range,
at or past the row end, or at or past `x + n` within the row. -/
theorem rowmajor_outside (w u v x y n : ℕ) (hu : u < w)
    (h : v ≠ y ∨ u < x ∨ x + n ≤ u) :
    v * w + u < y * w + x ∨ y * w + w ≤ v * w + u ∨
      y * w + x + n ≤ v * w + u := by
  rcases h with hv | hx | hx
  · rcases Nat.lt_or_ge v y with hlt | hge
    · left
      have h1 : v + 1 ≤ y := hlt
      have h2 : (v + 1) * w ≤ y * w := Nat.mul_le_mul_right w h1
      have h3 : v * w + u < (v + 1) * w := by
        rw [Nat.succ_mul]
        omega
      omega
    · have hgt : y < v := lt_of_le_of_ne hge (Ne.symm hv)
      right; left
      have h1 : y + 1 ≤ v := hgt
      have h2 : (y + 1) * w ≤ v * w := Nat.mul_le_mul_right w h1
      rw [Nat.succ_mul] at h2
      omega
  · rcases Nat.lt_or_ge y v with hgt | hge
    · right; left
      have h2 : (y + 1) * w ≤ v * w := Nat.mul_le_mul_right w hgt
      rw [Nat.succ_mul] at h2
      omega
    · left
      have h2 : v * w ≤ y * w := Nat.mul_le_mul_right w hge
      omega
  · rcases Nat.lt_or_ge v y with hlt | hge
    · left
      have h2 : (v + 1) * w ≤ y * w := Nat.mul_le_mul_right w hlt
      rw [Nat.succ_mul] at h2
      omega
    · right; right
      have h2 : y * w ≤ v * w := Nat.mul_le_mul_right w hge
      omega

/-- Claim C9: `draw_text` with no background leaves every cell's
background unchanged, and every cell off the written row segment
(`row y`, columns `[x, x + text.length)`) is entirely unchanged. -/
theorem C9_draw_text_no_bg_frame (pm : PowModel) (b : OptimizedBuffer)
    (text : List ℕ) (x y : ℕ) (fg : RGBA) (attributes : ℕ) (u v : ℕ)
    (hout : v ≠ y ∨ u < x ∨ x + text.length ≤ u) :
    (OptimizedBuffer.draw_text pm b text x y fg none attributes).get u v =
      b.get u v ∧
    ∀ p q, ((OptimizedBuffer.draw_text pm b text x y fg none attributes).get p q).map
        Cell.bg = (b.get p q).map Cell.bg := by
  by_cases h0 : x ≥ b.width ∨ y ≥ b.height ∨ text = []
  · unfold OptimizedBuffer.draw_text
    rw [if_pos h0]
    exact ⟨rfl, fun p q => rfl⟩
  · have hx : x < b.width := by
      rcases Nat.lt_or_ge x b.width with h | h
      · exact h
      · exact absurd (Or.inl h) h0
    unfold OptimizedBuffer.draw_text
    rw [if_neg h0]
    show ((if text.all (· < 128) then
        OptimizedBuffer.draw_text_fast (text.take (min text.length (b.width - x))) b
          (y * b.width + x) fg none attributes
      else
        OptimizedBuffer.draw_text_utf8 text b x y fg none attributes).get u v =
        b.get u v) ∧
      ∀ p q, (((if text.all (· < 128) then
        OptimizedBuffer.draw_text_fast (text.take (min text.length (b.width - x))) b
          (y * b.width + x) fg none attributes
      else
        OptimizedBuffer.draw_text_utf8 text b x y fg none attributes).get p q).map
          Cell.bg) = (b.get p q).map Cell.bg
    by_cases hascii : text.all (· < 128)
    · rw [if_pos hascii]
      obtain ⟨hW, hH⟩ := OptimizedBuffer.draw_text_fast_dims
        (text.take (min text.length (b.width - x))) b (y * b.width + x) fg none attributes
      constructor
      · unfold OptimizedBuffer.get
        rw [hW, hH]
        by_cases hb : u ≥ b.width ∨ v ≥ b.height
        · rw [if_pos hb, if_pos hb]
        · rw [if_neg hb, if_neg hb]
          have hub : u < b.width := by
            rcases Nat.lt_or_ge u b.width with h | h
            · exact h
            · exact absurd (Or.inl h) hb
          have hout2 : v ≠ y ∨ u < x ∨ x + min text.length (b.width - x) ≤ u := by
            rcases hout with h | h | h
            · exact Or.inl h
            · exact Or.inr (Or.inl h)
            · refine Or.inr (Or.inr ?_)
              omega
          apply OptimizedBuffer.draw_text_fast_untouched
          rw [List.length_take]
          rcases rowmajor_outside b.width u v x y (min text.length (b.width - x))
            hub hout2 with h1 | h1 | h1 <;> omega
      · intro p q
        unfold OptimizedBuffer.get
        rw [hW, hH]
        by_cases hb : p ≥ b.width ∨ q ≥ b.height
        · rw [if_pos hb, if_pos hb]
        · rw [if_neg hb, if_neg hb]
          exact OptimizedBuffer.draw_text_fast_bg _ _ _ _ _ _
    · rw [if_neg hascii]
      obtain ⟨hW, hH⟩ := OptimizedBuffer.draw_text_utf8_dims
        text b x y fg none attributes
      constructor
      · unfold OptimizedBuffer.get
        rw [hW, hH]
        by_cases hb : u ≥ b.width ∨ v ≥ b.height
        · rw [if_pos hb, if_pos hb]
        · rw [if_neg hb, if_neg hb]
          have hub : u < b.width := by
            rcases Nat.lt_or_ge u b.width with h | h
            · exact h
            · exact absurd (Or.inl h) hb
          exact OptimizedBuffer.draw_text_utf8_untouched text b x y fg none attributes _
            (rowmajor_outside b.width u v x y text.length hub hout)
      · intro p q
        unfold OptimizedBuffer.get
        rw [hW, hH]
        by_cases hb : p ≥ b.width ∨ q ≥ b.height
        · rw [if_pos hb, if_pos hb]
        · rw [if_neg hb, if_neg hb]
          exact OptimizedBuffer.draw_text_utf8_bg _ _ _ _ _ _ _

/-- Witness for C9 on a concrete grid: drawing two scalars at (1, 0)
leaves cell (0, 1) untouched and the backgrounds everywhere unchanged. -/
theorem C9_draw_text_no_bg_frame_witness :
    (OptimizedBuffer.draw_text pmId wGrid [72, 105] 1 0 ⟨0, 1, 0, 1⟩ none 0).get 0 1 =
      wGrid.get 0 1 ∧
    ∀ p q, ((OptimizedBuffer.draw_text pmId wGrid [72, 105] 1 0 ⟨0, 1, 0, 1⟩ none 0).get p q).map
        Cell.bg = (wGrid.get p q).map Cell.bg :=
  C9_draw_text_no_bg_frame pmId wGrid [72, 105] 1 0 ⟨0, 1, 0, 1⟩ 0 0 1
    (Or.inl (by decide))

/-- `OptimizedBuffer::resize`: allocate zero-initialized arrays, copy the
`min(old, new)` subgrid row by row, replace, update dimensions. -/
def OptimizedBuffer.resize (b : OptimizedBuffer) (width height : ℕ) :
    Except BufferError OptimizedBuffer :=
  if width = 0 ∨ height = 0 then .error .InvalidDimensions
  else
    let new_size := width * height
    let old_width := b.width
    let copy_width := min width old_width
    let copy_height := min height b.height
    let new_cells :=
      (List.range copy_height).foldl
        (fun acc y =>
          (List.range copy_width).foldl
            (fun acc2 x =>
              acc2.set (y * width + x) (b.cells.getD (y * old_width + x) zeroCell))
            acc)
        (List.replicate new_size zeroCell)
    .ok { b with width := width, height := height, cells := new_cells }

/-- Proof helper: the row-major traversal order of a nested
`for y { for x { ... } }` loop, as a flat list of `(y, x)` pairs. -/
def pairsList (rows cols : ℕ) : List (ℕ × ℕ) :=
  ((List.range rows).map (fun y => (List.range cols).map (fun x => (y, x)))).flatten

theorem pairsList_mem_bounds (rows cols : ℕ) (p : ℕ × ℕ) (h : p ∈ pairsList rows cols) :
    p.1 < rows ∧ p.2 < cols := by
  obtain ⟨l, hl, hpl⟩ := List.mem_flatten.mp h
  obtain ⟨y, hy, rfl⟩ := List.mem_map.mp hl
  obtain ⟨x, hx, rfl⟩ := List.mem_map.mp hpl
  exact ⟨List.mem_range.mp hy, List.mem_range.mp hx⟩

theorem pairsList_mem (rows cols y x : ℕ) (hy : y < rows) (hx : x < cols) :
    (y, x) ∈ pairsList rows cols := by
  apply List.mem_flatten.mpr
  refine ⟨(List.range cols).map (fun x => (y, x)), ?_, ?_⟩
  · exact List.mem_map.mpr ⟨y, List.mem_range.mpr hy, rfl⟩
  · exact List.mem_map.mpr ⟨x, List.mem_range.mpr hx, rfl⟩

/-- A fold of `List.set` writes leaves untouched indices alone. -/
theorem foldl_set_untouched {ι : Type} (ps : List ι) (idx : ι → ℕ) (val : ι → Cell)
    (acc : List Cell) (i : ℕ) (h : ∀ p ∈ ps, idx p ≠ i) :
    (ps.foldl (fun a p => a.set (idx p) (val p)) acc)[i]? = acc[i]? := by
  induction ps generalizing acc with
  | nil => rfl
  | cons p ps ih =>
    rw [List.foldl_cons, ih _ (fun q hq => h q (List.mem_cons_of_mem p hq))]
    rw [List.getElem?_set, if_neg (h p (List.mem_cons_self p ps))]

/-- A fold of `List.set` writes stores the (index-determined) value at
every index it touches. -/
theorem foldl_set_determined {ι : Type} (ps : List ι) (idx : ι → ℕ) (val : ι → Cell)
    (acc : List Cell) (i : ℕ) (c : Cell)
    (hmem : ∃ p ∈ ps, idx p = i)
    (hdet : ∀ p ∈ ps, idx p = i → val p = c)
    (hlen : i < acc.length) :
    (ps.foldl (fun a p => a.set (idx p) (val p)) acc)[i]? = some c := by
  induction ps generalizing acc with
  | nil =>
    obtain ⟨p, hp, -⟩ := hmem
    cases hp
  | cons p ps ih =>
    rw [List.foldl_cons]
    by_cases hmem2 : ∃ q ∈ ps, idx q = i
    · exact ih _ hmem2 (fun q hq hqi => hdet q (List.mem_cons_of_mem p hq) hqi)
        (by rw [List.length_set]; exact hlen)
    · obtain ⟨q, hq, hqi⟩ := hmem
      have hpi : idx p = i := by
        rcases List.mem_cons.mp hq with rfl | hmem3
        · exact hqi
        · exact absurd ⟨q, hmem3, hqi⟩ hmem2
      rw [foldl_set_untouched ps idx val _ i (fun r hr hri => hmem2 ⟨r, hr, hri⟩)]
      rw [List.getElem?_set, if_pos hpi, hpi, if_pos hlen,
        hdet p (List.mem_cons_self p ps) hpi]

/-- The nested copy loop of `resize` equals a single fold over the
row-major pair list. -/
theorem resize_copy_eq_pairs (ch cw W OW : ℕ) (old init : List Cell) :
    (List.range ch).foldl
        (fun acc y =>
          (List.range cw).foldl
            (fun acc2 x => acc2.set (y * W + x) (old.getD (y * OW + x) zeroCell))
            acc)
        init =
      (pairsList ch cw).foldl
        (fun a p => a.set (p.1 * W + p.2) (old.getD (p.1 * OW + p.2) zeroCell))
        init := by
  unfold pairsList
  rw [List.foldl_flatten, List.foldl_map]
  simp only [List.foldl_map]

theorem rowmajor_inj (w a bcol c d : ℕ) (hb : bcol < w) (hd : d < w)
    (heq : a * w + bcol = c * w + d) : a = c ∧ bcol = d := by
  have hw : 0 < w := by omega
  have h1 : (a * w + bcol) / w = a := by
    rw [Nat.mul_comm a w, Nat.mul_add_div hw, Nat.div_eq_of_lt hb]
    omega
  have h2 : (c * w + d) / w = c := by
    rw [Nat.mul_comm c w, Nat.mul_add_div hw, Nat.div_eq_of_lt hd]
    omega
  have hac : a = c := by rw [← h1, ← h2, heq]
  subst hac
  exact ⟨rfl, by omega⟩

/-- Claim C6 (amended): `resize(w, h)` with `w, h > 0` succeeds,
preserves every cell of the `min(old, new)` subgrid exactly, and fills
every cell outside the copied subgrid with the zero cell
(`char = 0`, transparent black fg and bg, attributes 0) — not with the
SPACE/white/black default cell of `init`. -/
theorem C6_resize_characterization (b : OptimizedBuffer) (w h : ℕ)
    (hw : w ≠ 0) (hh : h ≠ 0)
    (hwf : b.cells.length = b.width * b.height) :
    ∃ bR, b.resize w h = .ok bR ∧ bR.width = w ∧ bR.height = h ∧
      ∀ x y, x < w → y < h →
        bR.get x y =
          if x < min w b.width ∧ y < min h b.height then b.get x y
          else some zeroCell := by
  unfold OptimizedBuffer.resize
  rw [if_neg (by omega)]
  refine ⟨_, rfl, rfl, rfl, ?_⟩
  intro x y hx hy
  have hidx : y * w + x < w * h := by
    have h1 : (y + 1) * w ≤ h * w := Nat.mul_le_mul_right w (by omega)
    rw [Nat.succ_mul] at h1
    have h2 : w * h = h * w := Nat.mul_comm w h
    omega
  unfold OptimizedBuffer.get
  rw [if_neg (by simp; omega)]
  show ((List.range (min h b.height)).foldl _ (List.replicate (w * h) zeroCell))[y * w + x]? = _
  rw [resize_copy_eq_pairs]
  by_cases hin : x < min w b.width ∧ y < min h b.height
  · -- inside the copied subgrid: the old cell value
    have hbx : x < b.width := by omega
    have hby : y < b.height := by omega
    have hoidx : y * b.width + x < b.cells.length := by
      rw [hwf]
      have h1 : (y + 1) * b.width ≤ b.height * b.width := Nat.mul_le_mul_right _ (by omega)
      rw [Nat.succ_mul] at h1
      have h2 : b.width * b.height = b.height * b.width := Nat.mul_comm _ _
      omega
    rw [if_pos hin]
    rw [foldl_set_determined (pairsList (min h b.height) (min w b.width))
      (fun p => p.1 * w + p.2) (fun p => b.cells.getD (p.1 * b.width + p.2) zeroCell)
      _ _ (b.cells.getD (y * b.width + x) zeroCell)
      ⟨(y, x), pairsList_mem _ _ y x (by omega) (by omega), rfl⟩
      ?_ (by rw [List.length_replicate]; exact hidx)]
    · rw [if_neg (by omega : ¬(x ≥ b.width ∨ y ≥ b.height))]
      rw [List.getD_eq_getElem?_getD, List.getElem?_eq_getElem hoidx]
      rfl
    · rintro ⟨py, px⟩ hp hpi
      obtain ⟨hp1, hp2⟩ := pairsList_mem_bounds _ _ _ hp
      obtain ⟨rfl, rfl⟩ := rowmajor_inj w py px y x (by omega) (by omega) hpi
      rfl
  · -- outside the copied subgrid: the zero cell
    rw [if_neg hin]
    rw [foldl_set_untouched (pairsList (min h b.height) (min w b.width))
      (fun p => p.1 * w + p.2) _ _ _ ?_]
    · rw [List.getElem?_replicate, if_pos hidx]
    · rintro ⟨py, px⟩ hp hpi
      obtain ⟨hp1, hp2⟩ := pairsList_mem_bounds _ _ _ hp
      obtain ⟨rfl, rfl⟩ := rowmajor_inj w py px y x (by omega) (by omega) hpi
      exact hin ⟨by omega, by omega⟩

/-- A 2-by-2 grid holding the init-default cells, for C6's concrete
instances. -/
def cGrid : OptimizedBuffer :=
  { width := 2, height := 2, respect_alpha := false,
    cells := List.replicate 4 defaultCell }

/-- Counterexample to C6 as stated: after `resize(3, 3)` of a 2-by-2
default grid, the fresh cell (2, 2) holds the zero cell (`char = 0`,
transparent colors), not the SPACE/white/black default cell the claim
asserts. -/
theorem C6_resize_extended_not_default :
    (cGrid.resize 3 3).map (fun bR => bR.get 2 2) = .ok (some zeroCell) ∧
    zeroCell ≠ defaultCell := by
  constructor
  · rfl
  · decide

/-- Witness for the amended C6 at a concrete grid and size. -/
theorem C6_resize_characterization_witness :
    ∃ bR, cGrid.resize 3 3 = .ok bR ∧ bR.width = 3 ∧ bR.height = 3 ∧
      ∀ x y, x < 3 → y < 3 →
        bR.get x y =
          if x < min 3 cGrid.width ∧ y < min 3 cGrid.height then cGrid.get x y
          else some zeroCell :=
  C6_resize_characterization cGrid 3 3 (by decide) (by decide) (by decide)

/-- `OptimizedBuffer::fill_rect`: clip to the grid, then per-cell alpha
blending for a translucent bg, or a bulk write of
`(SPACE, white, bg, 0)` cells otherwise. -/
def OptimizedBuffer.fill_rect (pm : PowModel) (b : OptimizedBuffer)
    (x y width height : ℕ) (bg : RGBA) : OptimizedBuffer :=
  if b.width = 0 ∨ b.height = 0 ∨ width = 0 ∨ height = 0 then b
  else if x ≥ b.width ∨ y ≥ b.height then b
  else
    let x_start := x
    let y_start := y
    let x_end := min (x + width) b.width
    let y_end := min (y + height) b.height
    let has_alpha := is_rgba_with_alpha bg
    if has_alpha then
      (List.range' y_start (y_end - y_start)).foldl
        (fun acc curr_y =>
          (List.range' x_start (x_end - x_start)).foldl
            (fun acc2 curr_x =>
              acc2.set_cell_with_alpha_blending pm curr_x curr_y 32 ⟨1, 1, 1, 1⟩ bg 0)
            acc)
        b
    else
      (List.range' y_start (y_end - y_start)).foldl
        (fun acc curr_y =>
          (List.range' x_start (x_end - x_start)).foldl
            (fun acc2 curr_x =>
              acc2.set curr_x curr_y
                { char := 32, fg := ⟨1, 1, 1, 1⟩, bg := bg, attributes := 0 })
            acc)
        b

/-- `BorderSides` from `buffer.rs`. -/
structure BorderSides where
  top : Bool
  right : Bool
  bottom : Bool
  left : Bool
deriving DecidableEq, Repr

/-- The inclusive integer range `lo..=hi` as a list (empty when
`hi < lo`). -/
def intRange (lo hi : Int) : List Int :=
  (List.range (hi + 1 - lo).toNat).map (fun i => lo + i)

/-- `OptimizedBuffer::draw_box`.  Border char indices follow
`BorderCharIndex`: 0 TL, 1 TR, 2 BL, 3 BR, 4 horizontal, 5 vertical. -/
def OptimizedBuffer.draw_box (pm : PowModel) (b : OptimizedBuffer)
    (x y : Int) (width height : ℕ) (border_chars : List ℕ)
    (border_sides : BorderSides) (border_color background_color : RGBA)
    (should_fill : Bool) (title : Option (List ℕ)) (title_alignment : ℕ) :
    OptimizedBuffer :=
  let start_x := max 0 x
  let start_y := max 0 y
  let end_x := min ((b.width : Int) - 1) (x + (width : Int) - 1)
  let end_y := min ((b.height : Int) - 1) (y + (height : Int) - 1)
  if start_x > end_x ∨ start_y > end_y then b
  else
    let is_at_actual_left := start_x = x
    let is_at_actual_right := end_x = x + (width : Int) - 1
    let is_at_actual_top := start_y = y
    let is_at_actual_bottom := end_y = y + (height : Int) - 1
    -- Fill background if requested
    let b1 :=
      if should_fill then
        if ¬border_sides.top ∧ ¬border_sides.right ∧ ¬border_sides.bottom ∧
            ¬border_sides.left then
          let fill_width := (end_x - start_x + 1).toNat
          let fill_height := (end_y - start_y + 1).toNat
          b.fill_rect pm start_x.toNat start_y.toNat fill_width fill_height
            background_color
        else
          let inner_start_x := start_x +
            (if border_sides.left ∧ is_at_actual_left then 1 else 0)
          let inner_start_y := start_y +
            (if border_sides.top ∧ is_at_actual_top then 1 else 0)
          let inner_end_x := end_x -
            (if border_sides.right ∧ is_at_actual_right then 1 else 0)
          let inner_end_y := end_y -
            (if border_sides.bottom ∧ is_at_actual_bottom then 1 else 0)
          if inner_end_x ≥ inner_start_x ∧ inner_end_y ≥ inner_start_y then
            let fill_width := (inner_end_x - inner_start_x + 1).toNat
            let fill_height := (inner_end_y - inner_start_y + 1).toNat
            b.fill_rect pm inner_start_x.toNat inner_start_y.toNat fill_width
              fill_height background_color
          else b
      else b
    -- Calculate title position if provided
    let title_info : Bool × Int × Int :=
      match title with
      | some title_text =>
        if title_text ≠ [] ∧ border_sides.top ∧ is_at_actual_top then
          let title_length : Int := title_text.length
          let min_title_space : Int := 4
          if (width : Int) ≥ title_length + min_title_space then
            let padding : Int := 2
            let title_x :=
              if title_alignment = 1 then
                start_x + max padding (((width : Int) - title_length) / 2)
              else if title_alignment = 2 then
                start_x + (width : Int) - padding - title_length
              else
                start_x + padding
            let title_x2 := max (start_x + padding) (min title_x (end_x - title_length))
            (true, title_x2, title_x2 + title_length - 1)
          else (false, 0, 0)
        else (false, 0, 0)
      | none => (false, 0, 0)
    let should_draw_title := title_info.1
    let title_start_x := title_info.2.1
    let title_end_x := title_info.2.2
    -- Draw horizontal borders
    let b3 :=
      if border_sides.top ∨ border_sides.bottom then
        let bTop :=
          if border_sides.top ∧ is_at_actual_top then
            (intRange start_x end_x).foldl
              (fun acc draw_x =>
                if 0 ≤ start_y ∧ start_y < (acc.height : Int) then
                  if should_draw_title = true ∧ title_start_x ≤ draw_x ∧
                      draw_x ≤ title_end_x then
                    acc
                  else
                    let ch :=
                      if draw_x = start_x ∧ is_at_actual_left then
                        if border_sides.left then border_chars.getD 0 0
                        else border_chars.getD 4 0
                      else if draw_x = end_x ∧ is_at_actual_right then
                        if border_sides.right then border_chars.getD 1 0
                        else border_chars.getD 4 0
                      else border_chars.getD 4 0
                    acc.set_cell_with_alpha_blending pm draw_x.toNat start_y.toNat ch
                      border_color background_color 0
                else acc)
              b1
          else b1
        if border_sides.bottom ∧ is_at_actual_bottom then
          (intRange start_x end_x).foldl
            (fun acc draw_x =>
              if 0 ≤ end_y ∧ end_y < (acc.height : Int) then
                let ch :=
                  if draw_x = start_x ∧ is_at_actual_left then
                    if border_sides.left then border_chars.getD 2 0
                    else border_chars.getD 4 0
                  else if draw_x = end_x ∧ is_at_actual_right then
                    if border_sides.right then border_chars.getD 3 0
                    else border_chars.getD 4 0
                  else border_chars.getD 4 0
                acc.set_cell_with_alpha_blending pm draw_x.toNat end_y.toNat ch
                  border_color background_color 0
              else acc)
            bTop
        else bTop
      else b1
    -- Special cases for extending vertical borders
    let left_border_only := border_sides.left ∧ is_at_actual_left ∧
      ¬border_sides.top ∧ ¬border_sides.bottom
    let right_border_only := border_sides.right ∧ is_at_actual_right ∧
      ¬border_sides.top ∧ ¬border_sides.bottom
    let bottom_only_with_verticals := border_sides.bottom ∧ is_at_actual_bottom ∧
      ¬border_sides.top ∧ (border_sides.left ∨ border_sides.right)
    let top_only_with_verticals := border_sides.top ∧ is_at_actual_top ∧
      ¬border_sides.bottom ∧ (border_sides.left ∨ border_sides.right)
    let extend_verticals_to_top := left_border_only ∨ right_border_only ∨
      bottom_only_with_verticals
    let extend_verticals_to_bottom := left_border_only ∨ right_border_only ∨
      top_only_with_verticals
    -- Draw vertical borders
    let vertical_start_y :=
      if extend_verticals_to_top then start_y
      else start_y + (if border_sides.top ∧ is_at_actual_top then 1 else 0)
    let vertical_end_y :=
      if extend_verticals_to_bottom then end_y
      else end_y - (if border_sides.bottom ∧ is_at_actual_bottom then 1 else 0)
    let b4 :=
      if border_sides.left ∨ border_sides.right then
        (intRange vertical_start_y vertical_end_y).foldl
          (fun acc draw_y =>
            let accL :=
              if border_sides.left ∧ is_at_actual_left ∧ 0 ≤ start_x ∧
                  start_x < (acc.width : Int) then
                acc.set_cell_with_alpha_blending pm start_x.toNat draw_y.toNat
                  (border_chars.getD 5 0) border_color background_color 0
              else acc
            if border_sides.right ∧ is_at_actual_right ∧ 0 ≤ end_x ∧
                end_x < (accL.width : Int) then
              accL.set_cell_with_alpha_blending pm end_x.toNat draw_y.toNat
                (border_chars.getD 5 0) border_color background_color 0
            else accL)
          b3
      else b3
    -- Draw title if calculated earlier
    if should_draw_title then
      match title with
      | some title_text =>
        b4.draw_text pm title_text title_start_x.toNat start_y.toNat border_color
          (some background_color) 0
      | none => b4
    else b4

/-- The standard border glyph set: TL TR BL BR H V TopT BottomT LeftT
RightT Cross. -/
def stdBorderChars : List ℕ :=
  [0x250C, 0x2510, 0x2514, 0x2518, 0x2500, 0x2502, 0x252C, 0x2534,
   0x251C, 0x2524, 0x253C]

/-- Opaque blue. -/
def blueC : RGBA := ⟨0, 0, 1, 1⟩

/-- Opaque yellow. -/
def yellowC : RGBA := ⟨1, 1, 0, 1⟩

/-- The 20-by-5 default grid of scenario S3. -/
def boxGrid : OptimizedBuffer :=
  { width := 20, height := 5, respect_alpha := false,
    cells := List.replicate 100 defaultCell }

/-- The S3 call: `draw_box(0, 0, 20, 5, standard_chars, all sides, blue,
yellow, fill, "Hi", align = center)`. -/
def boxResult : OptimizedBuffer :=
  boxGrid.draw_box pmId 0 0 20 5 stdBorderChars ⟨true, true, true, true⟩
    blueC yellowC true (some [72, 105]) 1

set_option maxRecDepth 4000 in
/-- Counterexample to C5 as stated: the centered title starts at column
9, not 8 — cell (8, 0) holds the horizontal border glyph 0x2500 and not
the character H (72). -/
theorem C5_title_position_counterexample :
    (boxResult.get 8 0).map Cell.char = some 0x2500 ∧
    (boxResult.get 8 0).map Cell.char ≠ some 72 ∧
    (boxResult.get 9 0).map Cell.char = some 72 := by
  refine ⟨by decide, by decide, by decide⟩

set_option maxRecDepth 8000 in
/-- Claim C5 (amended): in the S3 box the top row has corner glyphs at
columns 0 and 19, horizontal glyphs at columns 1-8 and 11-18, and the
title "Hi" at (9, 0)-(10, 0), all drawn with the border color as fg and
the box background as bg. -/
theorem C5_box_top_row_amended :
    (List.range 20).map (fun i => boxResult.get i 0) =
      [some { char := 0x250C, fg := blueC, bg := yellowC, attributes := 0 }] ++
      List.replicate 8 (some { char := 0x2500, fg := blueC, bg := yellowC, attributes := 0 }) ++
      [some { char := 72, fg := blueC, bg := yellowC, attributes := 0 },
       some { char := 105, fg := blueC, bg := yellowC, attributes := 0 }] ++
      List.replicate 8 (some { char := 0x2500, fg := blueC, bg := yellowC, attributes := 0 }) ++
      [some { char := 0x2510, fg := blueC, bg := yellowC, attributes := 0 }] := by
  decide

/-- `fn codepoint_display_width(cp)` from `renderer.rs`: control and
combining codepoints are width 0, East Asian Wide ranges width 2,
everything else width 1. -/
def codepoint_display_width (cp : ℕ) : ℕ :=
  if cp < 128 then
    if cp = 0 ∨ cp < 32 ∨ cp = 0x7F then 0 else 1
  else if (0x300 ≤ cp ∧ cp ≤ 0x36F) ∨ (0x1AB0 ≤ cp ∧ cp ≤ 0x1AFF) ∨
      (0x1DC0 ≤ cp ∧ cp ≤ 0x1DFF) ∨ (0x20D0 ≤ cp ∧ cp ≤ 0x20FF) ∨
      (0xFE20 ≤ cp ∧ cp ≤ 0xFE2F) then 0
  else if (0x1100 ≤ cp ∧ cp ≤ 0x115F) ∨ cp = 0x2329 ∨ cp = 0x232A ∨
      (0x2E80 ≤ cp ∧ cp ≤ 0xA4CF) ∨ (0xAC00 ≤ cp ∧ cp ≤ 0xD7A3) ∨
      (0xF900 ≤ cp ∧ cp ≤ 0xFAFF) ∨ (0xFE10 ≤ cp ∧ cp ≤ 0xFE19) ∨
      (0xFE30 ≤ cp ∧ cp ≤ 0xFE6F) ∨ (0xFF00 ≤ cp ∧ cp ≤ 0xFF60) ∨
      (0xFFE0 ≤ cp ∧ cp ≤ 0xFFE6) ∨ (0x1F300 ≤ cp ∧ cp ≤ 0x1FAFF) then 2
  else 1

/-- `fn rgba_component_to_u8(component)`: clamp to `[0, 1]`, then
truncate `component * 255 + 0.5`. -/
def rgba_component_to_u8 (component : ℚ) : ℕ :=
  if component ≤ 0 then 0
  else if component ≥ 1 then 255
  else (component * 255 + 1/2).floor.toNat

/-- An ASCII escape string as its list of bytes. -/
def strBytes (s : String) : List ℕ :=
  s.data.map Char.toNat

/-- Decimal rendering of a number, as bytes. -/
def natBytes (n : ℕ) : List ℕ :=
  strBytes (toString n)

/-- UTF-8 encoding of a Unicode scalar; codepoints `char::from_u32`
rejects (surrogates, beyond 0x10FFFF) contribute no bytes, as in the
source. -/
def utf8Encode (c : ℕ) : List ℕ :=
  if ¬(c < 0xD800 ∨ (0xDFFF < c ∧ c ≤ 0x10FFFF)) then []
  else if c < 0x80 then [c]
  else if c < 0x800 then [0xC0 + c / 0x40, 0x80 + c % 0x40]
  else if c < 0x10000 then
    [0xE0 + c / 0x1000, 0x80 + (c / 0x40) % 0x40, 0x80 + c % 0x40]
  else
    [0xF0 + c / 0x40000, 0x80 + (c / 0x1000) % 0x40,
     0x80 + (c / 0x40) % 0x40, 0x80 + c % 0x40]

/-- `TextAttributes::apply_attributes_output_writer`: one SGR sequence
per set attribute bit, in bit order. -/
def apply_attributes_bytes (attributes : ℕ) : List ℕ :=
  (if attributes &&& 1 ≠ 0 then strBytes "\x1b[1m" else []) ++
  (if attributes &&& 2 ≠ 0 then strBytes "\x1b[2m" else []) ++
  (if attributes &&& 4 ≠ 0 then strBytes "\x1b[3m" else []) ++
  (if attributes &&& 8 ≠ 0 then strBytes "\x1b[4m" else []) ++
  (if attributes &&& 16 ≠ 0 then strBytes "\x1b[5m" else []) ++
  (if attributes &&& 32 ≠ 0 then strBytes "\x1b[7m" else []) ++
  (if attributes &&& 64 ≠ 0 then strBytes "\x1b[8m" else []) ++
  (if attributes &&& 128 ≠ 0 then strBytes "\x1b[9m" else [])

/-- `CliRenderer::write_move_to`: `CSI row;col H`. -/
def write_move_to (xv yv : ℕ) : List ℕ :=
  strBytes "\x1b[" ++ natBytes yv ++ strBytes ";" ++ natBytes xv ++ strBytes "H"

/-- `CliRenderer::write_fg_color`: 24-bit SGR foreground. -/
def write_fg_color (r g bl : ℕ) : List ℕ :=
  strBytes "\x1b[38;2;" ++ natBytes r ++ strBytes ";" ++ natBytes g ++
    strBytes ";" ++ natBytes bl ++ strBytes "m"

/-- `CliRenderer::write_bg_color`: 24-bit SGR background. -/
def write_bg_color (r g bl : ℕ) : List ℕ :=
  strBytes "\x1b[48;2;" ++ natBytes r ++ strBytes ";" ++ natBytes g ++
    strBytes ";" ++ natBytes bl ++ strBytes "m"

/-- A lowercase hex digit, as a byte. -/
def hexDigit (n : ℕ) : ℕ :=
  if n < 10 then 48 + n else 87 + n

/-- Two lowercase hex digits (`{:02x}` for a byte), as bytes. -/
def hex2 (n : ℕ) : List ℕ :=
  [hexDigit (n / 16), hexDigit (n % 16)]

/-- `CliRenderer::write_cursor_color`: OSC 12 with `rgb:RR/GG/BB`. -/
def write_cursor_color (r g bl : ℕ) : List ℕ :=
  strBytes "\x1b]12;rgb:" ++ hex2 r ++ strBytes "/" ++ hex2 g ++
    strBytes "/" ++ hex2 bl ++ strBytes "\x07"

/-- The `i16 as u8` cast used for `current_attributes` (so `-1` becomes
255). -/
def intToU8 (i : Int) : ℕ :=
  (i % 256).toNat

/-- `COLOR_EPSILON_DEFAULT = 0.00001`. -/
def epsilonQ : ℚ := 1/100000

/-- `CursorStyle` from `renderer.rs`. -/
inductive CursorStyle where
  | Block
  | Line
  | Underline
deriving DecidableEq, Repr

/-- `InlineState` from `renderer.rs`. -/
structure InlineState where
  start_row : ℕ
  start_col : ℕ
  saved_fg : Option RGBA
  saved_bg : Option RGBA
  saved_attrs : ℕ
deriving DecidableEq, Repr

/-- `GlobalCursor` from `renderer.rs`. -/
structure GlobalCursor where
  x : ℕ
  y : ℕ
  visible : Bool
  style : CursorStyle
  blinking : Bool
  color : RGBA
deriving DecidableEq, Repr

/-- `CliRenderer::write_move_to_inline`: absolute positioning from the
captured inline start plus color/attribute restoration against the saved
inline state; plain `write_move_to` in alternate-screen mode. -/
def write_move_to_inline (xv yv : ℕ) (use_alternate_screen : Bool)
    (inline_state : InlineState) (current_fg current_bg : Option RGBA)
    (current_attrs : ℕ) : List ℕ :=
  if ¬use_alternate_screen then
    let abs_row := inline_state.start_row + yv
    let abs_col := if xv > 0 then xv else inline_state.start_col
    let posB := strBytes "\x1b[" ++ natBytes abs_row ++ strBytes ";" ++
      natBytes abs_col ++ strBytes "H"
    let fgB :=
      match current_fg with
      | some fg =>
        if inline_state.saved_fg ≠ some fg then
          write_fg_color (rgba_component_to_u8 fg.r) (rgba_component_to_u8 fg.g)
            (rgba_component_to_u8 fg.b)
        else []
      | none => []
    let bgB :=
      match current_bg with
      | some bg =>
        if inline_state.saved_bg ≠ some bg then
          write_bg_color (rgba_component_to_u8 bg.r) (rgba_component_to_u8 bg.g)
            (rgba_component_to_u8 bg.b)
        else []
      | none => []
    let attrB :=
      if current_attrs ≠ inline_state.saved_attrs ∧ current_attrs ≠ 0 then
        apply_attributes_bytes current_attrs
      else []
    posB ++ fgB ++ bgB ++ attrB
  else
    write_move_to xv yv

/-- The renderer fields `prepare_render_frame` reads.  Timing,
statistics, the hit grids and the output-buffer A/B tag do not influence
the produced byte stream and are omitted. -/
structure FlusherConfig where
  width : ℕ
  height : ℕ
  render_offset : ℕ
  use_alternate_screen : Bool
  lines_rendered : ℕ
  previous_lines_rendered : ℕ
  has_rendered_once : Bool
  inline_state : InlineState
  cursor : GlobalCursor
deriving DecidableEq, Repr

/-- The mutable frame state of `prepare_render_frame`: the output byte
buffer, the current buffer (updated in place as cells are flushed), the
run style registers, and the cells-updated counter. -/
structure FlushState where
  out : List ℕ
  cur : OptimizedBuffer
  current_fg : Option RGBA
  current_bg : Option RGBA
  current_attributes : Int
  cells_updated : ℕ
deriving DecidableEq, Repr

/-- The per-row run state of `prepare_render_frame`. -/
structure RowState where
  run_start : Option ℕ
  run_start_visual_col : Option ℕ
  run_length : ℕ
  run_buffer : List ℕ
  current_visual_col : ℕ
deriving DecidableEq, Repr

/-- The bytes emitted when a pending run is flushed: cursor move to the
run's visual column, the accumulated UTF-8 payload, SGR reset. -/
def flushRunBytes (cfg : FlusherConfig) (y : ℕ) (st : FlushState) (rs : RowState) :
    List ℕ :=
  write_move_to_inline (rs.run_start_visual_col.getD 0 + 1) (y + 1 + cfg.render_offset)
    cfg.use_alternate_screen cfg.inline_state st.current_fg st.current_bg
    (intToU8 st.current_attributes) ++
  rs.run_buffer ++ strBytes "\x1b[0m"

/-- One iteration of the inner column loop of `prepare_render_frame`:
skip-and-flush for unchanged cells (non-force), run break on style
change (move + SGR fg/bg + attributes), wide-char continuation handling,
UTF-8 payload accumulation, and the in-place `current` update. -/
def processCell (cfg : FlusherConfig) (next_buf : OptimizedBuffer)
    (force_render : Bool) (y x : ℕ) (st : FlushState) (rs : RowState) :
    FlushState × RowState :=
  match st.cur.get x y, next_buf.get x y with
  | some current, some next =>
    if ¬force_render ∧ current.char = next.char ∧
        current.attributes = next.attributes ∧
        rgba_equal current.fg next.fg epsilonQ ∧
        rgba_equal current.bg next.bg epsilonQ then
      -- cell unchanged: flush any pending run, then advance the visual column
      let stepped :=
        if rs.run_length > 0 then
          ({ st with out := st.out ++ flushRunBytes cfg y st rs },
           { rs with run_start := none, run_start_visual_col := none,
                     run_length := 0, run_buffer := [] })
        else (st, rs)
      let w := codepoint_display_width next.char
      (stepped.1,
       { stepped.2 with current_visual_col :=
          stepped.2.current_visual_col + (if w = 0 then 1 else w) })
    else
      let fg_match :=
        match st.current_fg with
        | some fg => rgba_equal fg next.fg epsilonQ
        | none => false
      let bg_match :=
        match st.current_bg with
        | some bg => rgba_equal bg next.bg epsilonQ
        | none => false
      let same_attributes := fg_match && bg_match &&
        ((next.attributes : Int) == st.current_attributes)
      let started :=
        if ¬same_attributes ∨ rs.run_start = none then
          let stFl :=
            if rs.run_length > 0 then
              { st with out := st.out ++ flushRunBytes cfg y st rs }
            else st
          let rsNew : RowState :=
            { run_start := some x
              run_start_visual_col := some rs.current_visual_col
              run_length := 0
              run_buffer := if rs.run_length > 0 then [] else rs.run_buffer
              current_visual_col := rs.current_visual_col }
          let st2 := { stFl with current_fg := some next.fg
                                 current_bg := some next.bg
                                 current_attributes := (next.attributes : Int) }
          let moveB := write_move_to_inline (rs.current_visual_col + 1)
            (y + 1 + cfg.render_offset) cfg.use_alternate_screen cfg.inline_state
            st2.current_fg st2.current_bg (intToU8 st2.current_attributes)
          let colorB :=
            write_fg_color (rgba_component_to_u8 next.fg.r)
              (rgba_component_to_u8 next.fg.g) (rgba_component_to_u8 next.fg.b) ++
            write_bg_color (rgba_component_to_u8 next.bg.r)
              (rgba_component_to_u8 next.bg.g) (rgba_component_to_u8 next.bg.b)
          let attrB :=
            if next.attributes ≠ 0 then apply_attributes_bytes next.attributes
            else []
          ({ st2 with out := st2.out ++ moveB ++ colorB ++ attrB }, rsNew)
        else (st, rs)
      let st1 := started.1
      let rs1 := started.2
      if next.char = 0xFFFF then
        -- wide-char continuation: no output, no visual advance, update current
        ({ st1 with cur := st1.cur.set x y next
                    cells_updated := st1.cells_updated + 1 }, rs1)
      else
        let w := codepoint_display_width next.char
        let out_char := if w = 0 then 32 else next.char
        let rs2 :=
          { rs1 with run_buffer := rs1.run_buffer ++ utf8Encode out_char
                     run_length := rs1.run_length + 1
                     current_visual_col :=
                       rs1.current_visual_col + (if w = 0 then 1 else w) }
        ({ st1 with cur := st1.cur.set x y next
                    cells_updated := st1.cells_updated + 1 }, rs2)
  | _, _ => (st, rs)

/-- One iteration of the row loop of `prepare_render_frame`: the
skip-empty-lines test for the first inline frame, the column walk, the
trailing run flush, and the inline erase-to-end-of-line. -/
def processRow (cfg : FlusherConfig) (next_buf : OptimizedBuffer)
    (force_render skip_empty_lines : Bool) (y : ℕ) (st : FlushState) : FlushState :=
  let line_is_empty :=
    skip_empty_lines &&
      (List.range cfg.width).all fun x =>
        match next_buf.get x y with
        | some cell =>
          cell.char == 32 && rgba_equal cell.fg ⟨1, 1, 1, 1⟩ epsilonQ &&
            rgba_equal cell.bg ⟨0, 0, 0, 1⟩ epsilonQ
        | none => true
  if line_is_empty then st
  else
    let rs0 : RowState :=
      { run_start := none, run_start_visual_col := none, run_length := 0,
        run_buffer := [], current_visual_col := 0 }
    let walked := (List.range cfg.width).foldl
      (fun (p : FlushState × RowState) x => processCell cfg next_buf force_render y x p.1 p.2)
      (st, rs0)
    let stFl :=
      if walked.2.run_length > 0 then
        { walked.1 with out := walked.1.out ++ flushRunBytes cfg y walked.1 walked.2 }
      else walked.1
    if ¬cfg.use_alternate_screen ∧ y < cfg.lines_rendered then
      { stFl with out := stFl.out ++ strBytes "\x1b[K" }
    else stFl

/-- `CliRenderer::prepare_render_frame`, as a pure function from the
renderer configuration and the two grids to the produced byte stream and
the updated `current` buffer.  The timing samples taken by the source
(`Instant::now`) feed only the statistics, never the output buffer, and
the trailing next-buffer clear and hit-grid swap do not touch the output
either, so they are not part of the byte-stream model. -/
def prepare_render_frame (cfg : FlusherConfig) (current next_buf : OptimizedBuffer)
    (force : Bool) : FlushState :=
  let force_render := if ¬cfg.use_alternate_screen then true else force
  let render_height :=
    if ¬cfg.use_alternate_screen then cfg.lines_rendered else cfg.height
  let skip_empty_lines := ¬cfg.use_alternate_screen && ¬cfg.has_rendered_once
  let st0 : FlushState :=
    { out := strBytes "\x1b[?25l", cur := current, current_fg := none,
      current_bg := none, current_attributes := -1, cells_updated := 0 }
  let stRows := (List.range render_height).foldl
    (fun st y => processRow cfg next_buf force_render skip_empty_lines y st) st0
  let st1 := { stRows with out := stRows.out ++ strBytes "\x1b[0m" }
  let st2 :=
    if ¬cfg.use_alternate_screen ∧ cfg.has_rendered_once ∧
        cfg.previous_lines_rendered > cfg.lines_rendered then
      { st1 with out := st1.out ++ strBytes "\x1b[" ++
          natBytes (cfg.inline_state.start_row + cfg.lines_rendered + 1) ++
          strBytes ";1H" ++ strBytes "\x1b[J" }
    else st1
  if cfg.cursor.visible then
    let styleB :=
      match cfg.cursor.style, cfg.cursor.blinking with
      | .Block, true => strBytes "\x1b[1 q"
      | .Block, false => strBytes "\x1b[2 q"
      | .Line, true => strBytes "\x1b[5 q"
      | .Line, false => strBytes "\x1b[6 q"
      | .Underline, true => strBytes "\x1b[3 q"
      | .Underline, false => strBytes "\x1b[4 q"
    let colorB := write_cursor_color (rgba_component_to_u8 cfg.cursor.color.r)
      (rgba_component_to_u8 cfg.cursor.color.g)
      (rgba_component_to_u8 cfg.cursor.color.b)
    let posB :=
      if cfg.use_alternate_screen then
        write_move_to cfg.cursor.x (cfg.cursor.y + cfg.render_offset)
      else if cfg.cursor.y < cfg.lines_rendered then
        write_move_to_inline cfg.cursor.x (cfg.cursor.y + 1) false
          cfg.inline_state none none 0
      else []
    { st2 with out := st2.out ++ colorB ++ styleB ++ posB ++ strBytes "\x1b[?25h" }
  else
    { st2 with out := st2.out ++ strBytes "\x1b[?25l" }

/-- Claim C8: the differential flusher is deterministic — two
invocations on equal inputs (grids, configuration, force flag) produce
byte-for-byte identical output streams.  In this embedding the flusher
is a pure function of exactly these inputs: the timing calls of the
source feed only statistics, never the emitted bytes. -/
theorem C8_flusher_deterministic (cfg1 cfg2 : FlusherConfig)
    (cur1 cur2 next1 next2 : OptimizedBuffer) (force1 force2 : Bool)
    (hcfg : cfg1 = cfg2) (hcur : cur1 = cur2) (hnext : next1 = next2)
    (hforce : force1 = force2) :
    (prepare_render_frame cfg1 cur1 next1 force1).out =
      (prepare_render_frame cfg2 cur2 next2 force2).out := by
  subst hcfg
  subst hcur
  subst hnext
  subst hforce
  rfl

/-- A one-cell renderer configuration for the C8 witness. -/
def wCfg : FlusherConfig :=
  { width := 1, height := 1, render_offset := 0, use_alternate_screen := true,
    lines_rendered := 1, previous_lines_rendered := 1, has_rendered_once := false,
    inline_state := ⟨0, 0, none, none, 0⟩,
    cursor := ⟨1, 1, false, .Block, false, ⟨1, 1, 1, 1⟩⟩ }

/-- A one-cell next buffer for the C8 witness. -/
def wNext : OptimizedBuffer :=
  { width := 1, height := 1, respect_alpha := false,
    cells := [{ char := 65, fg := ⟨1, 1, 1, 1⟩, bg := ⟨0, 0, 0, 1⟩, attributes := 0 }] }

/-- A one-cell current buffer for the C8 witness. -/
def wCur : OptimizedBuffer :=
  { width := 1, height := 1, respect_alpha := false, cells := [defaultCell] }

/-- Witness for C8 at a concrete one-cell frame. -/
theorem C8_flusher_deterministic_witness :
    (prepare_render_frame wCfg wCur wNext true).out =
      (prepare_render_frame wCfg wCur wNext true).out :=
  C8_flusher_deterministic wCfg wCfg wCur wCur wNext wNext true true
    rfl rfl rfl rfl
